import Mathlib

/-!
Verification development for the Antarctic wind-feasibility service
(cache-first retrieval engine, window planner, backfill orchestrator and
derived analytics), embedded shallowly from the Python sources under
`src/app/services/`.

Conventions of the embedding:
* Python `datetime` values are modelled by the structure `DT` below; Python
  guarantees the field ranges (1 ≤ month ≤ 12, 1 ≤ day ≤ 31, ...) at
  construction time, so `DT` carries them as an invariant field.  Python
  compares datetimes field-lexicographically; `DT.ltb` mirrors that
  comparison and `DT.ltb_iff_key` reduces it to a single mixed-radix
  integer key, which the arithmetic lemmas use.
* Python floats are modelled as exact rationals (`ℚ`) for data values; the
  two computations that mathematically need transcendental functions
  (the circular mean `avg_angle_deg` and the cube root in the generation
  power curve) are modelled over `ℝ`.
* SQLite tables are modelled as Lean lists; ISO-8601 string comparison in
  `WHERE` clauses coincides with chronological order for the uniform
  strings the repository writes, so it is modelled as `DT` comparison.
-/

namespace AntarcticWind

/-- Model of a Python `datetime`: the constructor-enforced field bounds are
carried as an invariant. -/
structure DT where
  year : Int
  month : Nat
  day : Nat
  hour : Nat
  minute : Nat
  second : Nat
  micro : Nat
  hvalid : 1 ≤ month ∧ month ≤ 12 ∧ 1 ≤ day ∧ day ≤ 31 ∧
    hour ≤ 23 ∧ minute ≤ 59 ∧ second ≤ 59 ∧ micro ≤ 999999

theorem DT.ext' {a b : DT} (h1 : a.year = b.year) (h2 : a.month = b.month)
    (h3 : a.day = b.day) (h4 : a.hour = b.hour) (h5 : a.minute = b.minute)
    (h6 : a.second = b.second) (h7 : a.micro = b.micro) : a = b := by
  cases a
  cases b
  simp only at h1 h2 h3 h4 h5 h6 h7
  subst h1 h2 h3 h4 h5 h6 h7
  rfl

instance : DecidableEq DT := fun a b =>
  if h : a.year = b.year ∧ a.month = b.month ∧ a.day = b.day ∧ a.hour = b.hour ∧
      a.minute = b.minute ∧ a.second = b.second ∧ a.micro = b.micro then
    .isTrue (DT.ext' h.1 h.2.1 h.2.2.1 h.2.2.2.1 h.2.2.2.2.1 h.2.2.2.2.2.1 h.2.2.2.2.2.2)
  else
    .isFalse (fun hab => h (by subst hab; exact ⟨rfl, rfl, rfl, rfl, rfl, rfl, rfl⟩))

/-- Python compares datetimes by their field tuples, lexicographically. -/
def DT.ltb (a b : DT) : Bool :=
  if a.year ≠ b.year then decide (a.year < b.year)
  else if a.month ≠ b.month then decide (a.month < b.month)
  else if a.day ≠ b.day then decide (a.day < b.day)
  else if a.hour ≠ b.hour then decide (a.hour < b.hour)
  else if a.minute ≠ b.minute then decide (a.minute < b.minute)
  else if a.second ≠ b.second then decide (a.second < b.second)
  else decide (a.micro < b.micro)

def DT.leb (a b : DT) : Bool := !(DT.ltb b a)

/-- Mixed-radix linearisation of a datetime; thanks to the field bounds the
lexicographic comparison `DT.ltb` coincides with comparison of this key. -/
def DT.key (d : DT) : Int :=
  (((((d.year * 13 + d.month) * 32 + d.day) * 24 + d.hour) * 60 + d.minute) * 60
      + d.second) * 1000000 + d.micro

theorem DT.ltb_iff_key {a b : DT} : DT.ltb a b = true ↔ a.key < b.key := by
  have ha := a.hvalid
  have hb := b.hvalid
  unfold DT.ltb DT.key
  split_ifs with h1 h2 h3 h4 h5 h6 <;> simp only [decide_eq_true_eq] <;> omega

theorem DT.leb_iff_key {a b : DT} : DT.leb a b = true ↔ a.key ≤ b.key := by
  unfold DT.leb
  rw [Bool.not_eq_true', ← Bool.not_eq_true, not_iff_comm, DT.ltb_iff_key]
  omega

/-- `windows.start_of_month`: replace day/hour/minute/second/microsecond. -/
def start_of_month (value : DT) : DT :=
  ⟨value.year, value.month, 1, 0, 0, 0, 0, by have h := value.hvalid; omega⟩

/-- `windows.next_month_start`: first instant of the following month. -/
def next_month_start (value : DT) : DT :=
  if h : (start_of_month value).month = 12 then
    ⟨(start_of_month value).year + 1, 1, 1, 0, 0, 0, 0, by omega⟩
  else
    ⟨(start_of_month value).year, (start_of_month value).month + 1, 1, 0, 0, 0, 0, by
      have hm := (start_of_month value).hvalid
      omega⟩

/-- A datetime that is the first instant of some calendar month. -/
def DT.IsMonthStart (d : DT) : Prop :=
  d.day = 1 ∧ d.hour = 0 ∧ d.minute = 0 ∧ d.second = 0 ∧ d.micro = 0

instance (d : DT) : Decidable d.IsMonthStart := by
  unfold DT.IsMonthStart
  infer_instance

/-- Months since the epoch marker: the position of a datetime's calendar
month on the integer month line. -/
def DT.monthIdx (d : DT) : Int := d.year * 12 + d.month

theorem start_of_month_monthIdx (d : DT) :
    (start_of_month d).monthIdx = d.monthIdx := rfl

theorem start_of_month_isMonthStart (d : DT) : (start_of_month d).IsMonthStart :=
  ⟨rfl, rfl, rfl, rfl, rfl⟩

theorem next_month_start_isMonthStart (d : DT) : (next_month_start d).IsMonthStart := by
  unfold next_month_start
  split_ifs <;> exact ⟨rfl, rfl, rfl, rfl, rfl⟩

theorem next_month_start_monthIdx (d : DT) :
    (next_month_start d).monthIdx = d.monthIdx + 1 := by
  have h := d.hvalid
  unfold next_month_start DT.monthIdx start_of_month
  split_ifs with h12 <;> simp only at h12 ⊢ <;> omega

theorem start_of_month_leb (d : DT) : DT.leb (start_of_month d) d = true := by
  rw [DT.leb_iff_key]
  have h := d.hvalid
  unfold DT.key start_of_month
  simp only
  omega

theorem ltb_next_month_start (d : DT) : DT.ltb d (next_month_start d) = true := by
  rw [DT.ltb_iff_key]
  have h := d.hvalid
  unfold DT.key next_month_start start_of_month
  split_ifs with h12 <;> simp only at h12 ⊢ <;> omega

/-- Comparison of any two datetimes bounds their calendar months. -/
theorem key_le_monthIdx_le {a b : DT} (h : a.key ≤ b.key) :
    a.monthIdx ≤ b.monthIdx := by
  have ha := a.hvalid
  have hb := b.hvalid
  unfold DT.key at h
  unfold DT.monthIdx
  omega

/-- A canonical month start is at or before every instant of the same or any
later calendar month. -/
theorem monthStart_key_le (m t : DT) (hm : m.IsMonthStart)
    (h : m.monthIdx ≤ t.monthIdx) : m.key ≤ t.key := by
  have ha := m.hvalid
  have hb := t.hvalid
  obtain ⟨h1, h2, h3, h4, h5⟩ := hm
  unfold DT.monthIdx at h
  unfold DT.key
  omega

/-- Every instant of an earlier calendar month is strictly before a canonical
month start. -/
theorem key_lt_monthStart (m t : DT) (hm : m.IsMonthStart)
    (h : t.monthIdx < m.monthIdx) : t.key < m.key := by
  have ha := m.hvalid
  have hb := t.hvalid
  obtain ⟨h1, h2, h3, h4, h5⟩ := hm
  unfold DT.monthIdx at h
  unfold DT.key
  omega

theorem monthStart_lt_iff {a b : DT} (_ha : a.IsMonthStart) (hb : b.IsMonthStart) :
    DT.ltb a b = true ↔ a.monthIdx < b.monthIdx := by
  rw [DT.ltb_iff_key]
  constructor
  · intro h
    by_contra hcon
    have hle : b.monthIdx ≤ a.monthIdx := by omega
    have := monthStart_key_le b a hb hle
    omega
  · intro h
    exact key_lt_monthStart b a hb h

theorem monthStart_inj {a b : DT} (ha : a.IsMonthStart) (hb : b.IsMonthStart)
    (h : a.monthIdx = b.monthIdx) : a = b := by
  have hva := a.hvalid
  have hvb := b.hvalid
  unfold DT.monthIdx at h
  obtain ⟨a1, a2, a3, a4, a5⟩ := ha
  obtain ⟨b1, b2, b3, b4, b5⟩ := hb
  exact DT.ext' (by omega) (by omega) (by omega) (by omega) (by omega) (by omega)
    (by omega)

/-- Body of the `while cursor < limit` loop of
`split_month_windows_covering_range`, run for an explicit number of
iterations.  Over canonical month starts the loop guard `cursor < limit`
is equivalent to `cursor.monthIdx < limit.monthIdx`
(`monthStart_lt_iff`), and each iteration advances `cursor` by exactly one
month (`next_month_start_monthIdx`), so the loop runs exactly
`(limit.monthIdx - cursor.monthIdx).toNat` times; the caller below passes
that count. -/
def splitLoop : Nat → DT → List (DT × DT)
  | 0, _ => []
  | n + 1, cursor => (cursor, next_month_start cursor) :: splitLoop n (next_month_start cursor)

/-- `windows.split_month_windows_covering_range`: inverted or empty ranges
return no windows; otherwise the calendar months from the month of
`start_utc` through the month of `end_utc` inclusive. -/
def split_month_windows_covering_range (start_utc end_utc : DT) : List (DT × DT) :=
  if DT.leb end_utc start_utc then []
  else
    splitLoop
      ((next_month_start end_utc).monthIdx - (start_of_month start_utc).monthIdx).toNat
      (start_of_month start_utc)

/-- n-fold month successor, the cursor after `n` loop iterations. -/
def nmsIter : Nat → DT → DT
  | 0, c => c
  | n + 1, c => nmsIter n (next_month_start c)

theorem nmsIter_monthIdx (n : Nat) (c : DT) :
    (nmsIter n c).monthIdx = c.monthIdx + n := by
  induction n generalizing c with
  | zero => simp [nmsIter]
  | succ k ih =>
    rw [nmsIter, ih, next_month_start_monthIdx]
    push_cast
    ring

theorem nmsIter_isMonthStart {c : DT} (hc : c.IsMonthStart) (n : Nat) :
    (nmsIter n c).IsMonthStart := by
  induction n generalizing c with
  | zero => exact hc
  | succ k ih => exact ih (next_month_start_isMonthStart c)

theorem nmsIter_succ_eq (n : Nat) (c : DT) :
    nmsIter (n + 1) c = next_month_start (nmsIter n c) := by
  induction n generalizing c with
  | zero => rfl
  | succ k ih => rw [nmsIter, ih, nmsIter]

theorem splitLoop_length (n : Nat) (c : DT) : (splitLoop n c).length = n := by
  induction n generalizing c with
  | zero => rfl
  | succ k ih => simp [splitLoop, ih]

theorem splitLoop_get (n : Nat) (c : DT) (k : Nat) (hk : k < n) :
    (splitLoop n c).get ⟨k, by rw [splitLoop_length]; exact hk⟩ =
      (nmsIter k c, nmsIter (k + 1) c) := by
  induction n generalizing c k with
  | zero => omega
  | succ m ih =>
    cases k with
    | zero => rfl
    | succ j =>
      have hj : j < m := by omega
      calc (splitLoop (m + 1) c).get ⟨j + 1, by rw [splitLoop_length]; omega⟩
          = (splitLoop m (next_month_start c)).get ⟨j, by rw [splitLoop_length]; omega⟩ :=
            rfl
        _ = (nmsIter j (next_month_start c), nmsIter (j + 1) (next_month_start c)) :=
            ih (next_month_start c) j hj
        _ = (nmsIter (j + 1) c, nmsIter (j + 1 + 1) c) := rfl

theorem splitLoop_getElem (n : Nat) (c : DT) (k : Nat)
    (hk : k < (splitLoop n c).length) :
    (splitLoop n c)[k] = (nmsIter k c, nmsIter (k + 1) c) := by
  have h := splitLoop_get n c k (by rw [splitLoop_length] at hk; exact hk)
  rw [List.get_eq_getElem] at h
  exact h

theorem splitLoop_mem_iff {n : Nat} {c : DT} {w : DT × DT} :
    w ∈ splitLoop n c ↔ ∃ k, k < n ∧ w = (nmsIter k c, nmsIter (k + 1) c) := by
  rw [List.mem_iff_getElem]
  constructor
  · rintro ⟨k, hk, hw⟩
    have hk' : k < n := by rw [splitLoop_length] at hk; exact hk
    exact ⟨k, hk', by rw [← hw, splitLoop_getElem n c k hk]⟩
  · rintro ⟨k, hk, hw⟩
    exact ⟨k, by rw [splitLoop_length]; exact hk,
      by rw [splitLoop_getElem n c k (by rw [splitLoop_length]; exact hk), hw]⟩

theorem splitLoop_chain' (n : Nat) (c : DT) :
    List.Chain' (fun a b : DT × DT => a.2 = b.1) (splitLoop n c) := by
  induction n generalizing c with
  | zero => exact List.chain'_nil
  | succ m ih =>
    cases m with
    | zero => exact List.chain'_singleton _
    | succ j =>
      rw [splitLoop]
      exact List.Chain'.cons rfl (ih (next_month_start c))

theorem splitLoop_getLast? (n : Nat) (c : DT) (hn : 0 < n) :
    (splitLoop n c).getLast? = some (nmsIter (n - 1) c, nmsIter n c) := by
  obtain ⟨m, rfl⟩ : ∃ m, n = m + 1 := ⟨n - 1, (Nat.succ_pred_eq_of_pos hn).symm⟩
  rw [List.getLast?_eq_getElem?, splitLoop_length, List.getElem?_eq_getElem
    (by rw [splitLoop_length]; omega)]
  rw [splitLoop_getElem (m + 1) c (m + 1 - 1) (by rw [splitLoop_length]; omega)]
  simp

theorem split_eq_splitLoop {s e : DT} (h : DT.ltb s e = true) :
    split_month_windows_covering_range s e =
      splitLoop ((next_month_start e).monthIdx - (start_of_month s).monthIdx).toNat
        (start_of_month s) := by
  unfold split_month_windows_covering_range
  have hleb : DT.leb e s = false := by
    unfold DT.leb
    rw [h]
    rfl
  rw [hleb]
  simp

theorem split_count_pos {s e : DT} (h : DT.ltb s e = true) :
    0 < ((next_month_start e).monthIdx - (start_of_month s).monthIdx).toNat := by
  have hk := DT.ltb_iff_key.mp h
  have hidx := key_le_monthIdx_le (le_of_lt hk)
  rw [next_month_start_monthIdx, start_of_month_monthIdx]
  omega

/- Concrete datetimes used by counterexamples and witnesses. -/

def dt2024_01_15 : DT := ⟨2024, 1, 15, 0, 0, 0, 0, by omega⟩
def dt2024_02_10 : DT := ⟨2024, 2, 10, 0, 0, 0, 0, by omega⟩
def dt2024_01_01 : DT := ⟨2024, 1, 1, 0, 0, 0, 0, by omega⟩
def dt2024_03_15 : DT := ⟨2024, 3, 15, 0, 0, 0, 0, by omega⟩
def dt2024_04_01 : DT := ⟨2024, 4, 1, 0, 0, 0, 0, by omega⟩

/-- C1 (counterexample): for the range 2024-01-15 → 2024-02-10 the planner
returns the two full months January and February; the first window starts
before `start_utc` (the 1st, not the 15th) and the last window ends
2024-03-01, strictly past `end_utc`, so the windows do not tile
`[start_utc, end_utc)` and the first/last windows are not clipped to the
range's endpoints. -/
theorem C1_counterexample :
    DT.ltb dt2024_01_15 dt2024_02_10 = true ∧
    (split_month_windows_covering_range dt2024_01_15 dt2024_02_10).map
        (fun w => ((w.1.year, w.1.month, w.1.day), (w.2.year, w.2.month, w.2.day))) =
      [((2024, 1, 1), (2024, 2, 1)), ((2024, 2, 1), (2024, 3, 1))] ∧
    (split_month_windows_covering_range dt2024_01_15 dt2024_02_10).head?.map
        (fun w => DT.ltb w.1 dt2024_01_15) = some true ∧
    (split_month_windows_covering_range dt2024_01_15 dt2024_02_10).getLast?.map
        (fun w => DT.ltb dt2024_02_10 w.2) = some true := by
  decide

/-- C1 (amended): for every range with `start_utc < end_utc` the planner's
windows are each exactly one calendar month (never clipped), consecutive
windows are adjacent (no gaps, no overlaps), and together they tile exactly
the half-open month-aligned hull `[start_of_month start_utc,
next_month_start end_utc)` of the range — a superset of
`[start_utc, end_utc)` — rather than the range itself. -/
theorem C1_amended (s e : DT) (h : DT.ltb s e = true) :
    split_month_windows_covering_range s e ≠ [] ∧
    (∀ w ∈ split_month_windows_covering_range s e,
      w.2 = next_month_start w.1 ∧ w.1.IsMonthStart) ∧
    List.Chain' (fun a b : DT × DT => a.2 = b.1)
      (split_month_windows_covering_range s e) ∧
    (split_month_windows_covering_range s e).head?.map Prod.fst =
      some (start_of_month s) ∧
    (split_month_windows_covering_range s e).getLast?.map Prod.snd =
      some (next_month_start e) ∧
    DT.leb (start_of_month s) s = true ∧
    DT.ltb e (next_month_start e) = true ∧
    (∀ t : DT,
      (DT.leb (start_of_month s) t = true ∧ DT.ltb t (next_month_start e) = true) ↔
      ∃ w ∈ split_month_windows_covering_range s e,
        DT.leb w.1 t = true ∧ DT.ltb t w.2 = true) := by
  have hc : (start_of_month s).IsMonthStart := start_of_month_isMonthStart s
  have hL : (next_month_start e).IsMonthStart := next_month_start_isMonthStart e
  have hnpos := split_count_pos h
  set c := start_of_month s with hcdef
  set L := next_month_start e with hLdef
  set n := (L.monthIdx - c.monthIdx).toNat with hndef
  have hncast : (n : Int) = L.monthIdx - c.monthIdx := by
    rw [hndef]
    have hk := DT.ltb_iff_key.mp h
    have hidx := key_le_monthIdx_le (le_of_lt hk)
    rw [hLdef, hcdef, next_month_start_monthIdx, start_of_month_monthIdx]
    omega
  have hsplit : split_month_windows_covering_range s e = splitLoop n c :=
    split_eq_splitLoop h
  have hlast_eq : nmsIter n c = L := by
    refine monthStart_inj (nmsIter_isMonthStart hc n) hL ?_
    rw [nmsIter_monthIdx]
    omega
  refine ⟨?_, ?_, ?_, ?_, ?_, start_of_month_leb s, ltb_next_month_start e, ?_⟩
  · rw [hsplit]
    intro hnil
    have hlen := splitLoop_length n c
    rw [hnil] at hlen
    simp only [List.length_nil] at hlen
    omega
  · intro w hw
    rw [hsplit] at hw
    obtain ⟨k, hk, hweq⟩ := splitLoop_mem_iff.mp hw
    subst hweq
    exact ⟨(nmsIter_succ_eq k c).symm ▸ rfl, nmsIter_isMonthStart hc k⟩
  · rw [hsplit]
    exact splitLoop_chain' n c
  · obtain ⟨m, hm⟩ : ∃ m, n = m + 1 := ⟨n - 1, by omega⟩
    rw [hsplit, hm]
    rfl
  · rw [hsplit, splitLoop_getLast? n c hnpos]
    simp [hlast_eq]
  · intro t
    constructor
    · rintro ⟨hct, htL⟩
      have hckey := DT.leb_iff_key.mp hct
      have hLkey := DT.ltb_iff_key.mp htL
      have hcidx : c.monthIdx ≤ t.monthIdx := key_le_monthIdx_le hckey
      have htidx : t.monthIdx < L.monthIdx := by
        by_contra hcon
        have := monthStart_key_le L t hL (by omega)
        omega
      set k := (t.monthIdx - c.monthIdx).toNat with hkdef
      have hkcast : (k : Int) = t.monthIdx - c.monthIdx := by omega
      refine ⟨(nmsIter k c, nmsIter (k + 1) c), ?_, ?_, ?_⟩
      · rw [hsplit]
        exact splitLoop_mem_iff.mpr ⟨k, by omega, rfl⟩
      · rw [DT.leb_iff_key]
        refine monthStart_key_le (nmsIter k c) t (nmsIter_isMonthStart hc k) ?_
        rw [nmsIter_monthIdx]
        omega
      · rw [DT.ltb_iff_key]
        refine key_lt_monthStart (nmsIter (k + 1) c) t (nmsIter_isMonthStart hc (k + 1)) ?_
        rw [nmsIter_monthIdx]
        push_cast
        omega
    · rintro ⟨w, hw, hwt, htw⟩
      rw [hsplit] at hw
      obtain ⟨k, hk, hweq⟩ := splitLoop_mem_iff.mp hw
      subst hweq
      dsimp only at hwt htw
      constructor
      · rw [DT.leb_iff_key]
        have h1 : c.key ≤ (nmsIter k c).key := by
          refine monthStart_key_le c (nmsIter k c) hc ?_
          rw [nmsIter_monthIdx]
          omega
        have h2 := DT.leb_iff_key.mp hwt
        omega
      · rw [DT.ltb_iff_key]
        have h1 := DT.ltb_iff_key.mp htw
        have h2 : (nmsIter (k + 1) c).key ≤ L.key := by
          rw [← hlast_eq]
          refine monthStart_key_le (nmsIter (k + 1) c) (nmsIter n c)
            (nmsIter_isMonthStart hc (k + 1)) ?_
          rw [nmsIter_monthIdx, nmsIter_monthIdx]
          push_cast
          omega
        omega

/-- C1 (witness): the amended tiling theorem applied to the concrete range
2024-01-15 → 2024-02-10. -/
theorem C1_witness :
    DT.ltb dt2024_01_15 dt2024_02_10 = true ∧
    (split_month_windows_covering_range dt2024_01_15 dt2024_02_10 ≠ [] ∧
    (∀ w ∈ split_month_windows_covering_range dt2024_01_15 dt2024_02_10,
      w.2 = next_month_start w.1 ∧ w.1.IsMonthStart) ∧
    List.Chain' (fun a b : DT × DT => a.2 = b.1)
      (split_month_windows_covering_range dt2024_01_15 dt2024_02_10) ∧
    (split_month_windows_covering_range dt2024_01_15 dt2024_02_10).head?.map Prod.fst =
      some (start_of_month dt2024_01_15) ∧
    (split_month_windows_covering_range dt2024_01_15 dt2024_02_10).getLast?.map Prod.snd =
      some (next_month_start dt2024_02_10) ∧
    DT.leb (start_of_month dt2024_01_15) dt2024_01_15 = true ∧
    DT.ltb dt2024_02_10 (next_month_start dt2024_02_10) = true ∧
    (∀ t : DT,
      (DT.leb (start_of_month dt2024_01_15) t = true ∧
        DT.ltb t (next_month_start dt2024_02_10) = true) ↔
      ∃ w ∈ split_month_windows_covering_range dt2024_01_15 dt2024_02_10,
        DT.leb w.1 t = true ∧ DT.ltb t w.2 = true)) :=
  ⟨by decide, C1_amended dt2024_01_15 dt2024_02_10 (by decide)⟩

/-! ## Repository (repository.py) and retrieval coordinator (data.py) -/

/-- `models.measurement.MeasurementType`. -/
inductive MeasurementType where
  | temperature
  | pressure
  | speed
  | direction
deriving DecidableEq

/-- `models.measurement.SourceMeasurement`; floats are modelled as exact
rationals.  `station_name` and the geographic fields are not read by any
retrieval or recovery decision and are omitted. -/
structure SourceMeasurement where
  measured_at_utc : DT
  temperature_c : Option ℚ
  pressure_hpa : Option ℚ
  speed_mps : Option ℚ
  direction_deg : Option ℚ
deriving DecidableEq

/-- A row of the `measurements` table (primary key `(station_id,
measured_at_utc)`). -/
structure MeasurementRow where
  station_id : String
  meas : SourceMeasurement
deriving DecidableEq

/-- A row of the `fetch_windows` table.  `fetched_at` is a logical clock
standing for the `fetched_at_utc` timestamp: the repository state hands out
strictly increasing stamps, mirroring `datetime.utcnow()` wall time. -/
structure FetchWindowRow where
  station_id : String
  start_utc : DT
  end_utc : DT
  fetched_at : Nat
  direction_checked : Bool
deriving DecidableEq

/-- The persistent store of `SQLiteRepository`: the two tables the claims
touch, plus the logical clock used for `fetched_at` stamps.  ISO-string
comparisons in the SQL `WHERE` clauses are modelled as `DT` comparisons
(the repository always writes uniform naive-UTC ISO strings, for which
lexicographic and chronological order agree). -/
structure RepoState where
  measurements : List MeasurementRow
  fetch_windows : List FetchWindowRow
  clock : Nat
deriving DecidableEq

def emptyRepo : RepoState := ⟨[], [], 0⟩

/-- The covering condition `start_utc <= ? AND end_utc >= ?` shared by
`has_cached_fetch_window`, `is_fetch_window_direction_checked` and
`mark_fetch_window_direction_checked`. -/
def covers (sid : String) (s e : DT) (r : FetchWindowRow) : Bool :=
  decide (r.station_id = sid) && DT.leb r.start_utc s && DT.leb e r.end_utc

/-- One `ON CONFLICT(station_id, measured_at_utc) DO UPDATE` upsert of a
measurement row. -/
def upsertMeasRow (ms : List MeasurementRow) (sid : String) (m : SourceMeasurement) :
    List MeasurementRow :=
  if ms.any (fun r => decide (r.station_id = sid ∧ r.meas.measured_at_utc = m.measured_at_utc)) then
    ms.map (fun r =>
      if r.station_id = sid ∧ r.meas.measured_at_utc = m.measured_at_utc then ⟨sid, m⟩ else r)
  else ms ++ [⟨sid, m⟩]

/-- `SQLiteRepository.upsert_measurements`: upserts the fetched rows, then
upserts the window's `fetch_windows` record with the current timestamp and,
unconditionally, `direction_checked = 1` (the fixed local
`direction_checked = 1` of the source). -/
def upsert_measurements (st : RepoState) (sid : String) (rows : List SourceMeasurement)
    (s e : DT) : RepoState :=
  let ms := rows.foldl (fun acc m => upsertMeasRow acc sid m) st.measurements
  let newRec : FetchWindowRow := ⟨sid, s, e, st.clock, true⟩
  let keyMatch := fun (r : FetchWindowRow) =>
    r.station_id = sid ∧ r.start_utc = s ∧ r.end_utc = e
  let fw :=
    if st.fetch_windows.any (fun r => decide (keyMatch r)) then
      st.fetch_windows.map (fun r => if keyMatch r then newRec else r)
    else st.fetch_windows ++ [newRec]
  ⟨ms, fw, st.clock + 1⟩

/-- `SQLiteRepository.has_cached_fetch_window`. -/
def has_cached_fetch_window (st : RepoState) (sid : String) (s e : DT) : Bool :=
  st.fetch_windows.any (covers sid s e)

/-- The `ORDER BY fetched_at_utc DESC LIMIT 1` pick among covering rows:
keeps the record with the largest stamp (first such on ties). -/
def latestCovering (st : RepoState) (sid : String) (s e : DT) : Option FetchWindowRow :=
  (st.fetch_windows.filter (covers sid s e)).foldl
    (fun acc r =>
      match acc with
      | none => some r
      | some b => if b.fetched_at < r.fetched_at then some r else some b)
    none

/-- `SQLiteRepository.is_fetch_window_direction_checked`. -/
def is_fetch_window_direction_checked (st : RepoState) (sid : String) (s e : DT) : Bool :=
  match latestCovering st sid s e with
  | none => false
  | some r => r.direction_checked

/-- `SQLiteRepository.mark_fetch_window_direction_checked`: set the flag on
every covering record, inserting a fresh flagged record if none covers. -/
def mark_fetch_window_direction_checked (st : RepoState) (sid : String) (s e : DT) :
    RepoState :=
  let updated := st.fetch_windows.map
    (fun r => if covers sid s e r then { r with direction_checked := true } else r)
  let fw :=
    if st.fetch_windows.any (covers sid s e) then updated
    else updated ++ [⟨sid, s, e, st.clock, true⟩]
  ⟨st.measurements, fw, st.clock + 1⟩

/-- `SQLiteRepository.get_measurements`: station rows with
`measured_at_utc >= start` AND `measured_at_utc <= end` (both bounds
inclusive), ordered by timestamp ascending. -/
def get_measurements (st : RepoState) (sid : String) (s e : DT) : List SourceMeasurement :=
  List.insertionSort (fun a b : SourceMeasurement =>
      DT.leb a.measured_at_utc b.measured_at_utc = true)
    ((st.measurements.filter (fun r =>
      decide (r.station_id = sid) && DT.leb s r.meas.measured_at_utc &&
        DT.leb r.meas.measured_at_utc e)).map (·.meas))

/-- The selectable meteorological stations of
`constants.KNOWN_ANTARCTIC_STATIONS` (`is_selectable = True`). -/
def selectable_meteo_station_ids : List String := ["89064", "89070"]

/-- `DataMixin._needs_direction_recovery_refresh`, returning the decision
together with the possibly updated store (the branches that trust the
window mark it `direction_checked`).  In the deployed service the
`getattr`-guarded repository methods and the selectable-station lookup are
always present, so those guards always take the callable branch. -/
def needs_direction_recovery_refresh (st : RepoState) (sid : String) (s e : DT)
    (selected : List MeasurementType) : Bool × RepoState :=
  if ¬selected.isEmpty ∧ MeasurementType.direction ∉ selected then (false, st)
  else if sid ∉ selectable_meteo_station_ids then (false, st)
  else if is_fetch_window_direction_checked st sid s e then (false, st)
  else if (get_measurements st sid s e).isEmpty then
    (false, mark_fetch_window_direction_checked st sid s e)
  else if ((get_measurements st sid s e).filter (fun r => r.speed_mps.isSome)).isEmpty then
    (false, mark_fetch_window_direction_checked st sid s e)
  else if ((get_measurements st sid s e).filter (fun r => r.speed_mps.isSome)).any
      (fun r => r.direction_deg.isSome) then
    (false, mark_fetch_window_direction_checked st sid s e)
  else (true, st)

/-- One iteration of `DataMixin.get_data`'s per-window loop, threading the
store and the count of upstream `fetch_station_data` calls. -/
def get_data_step (upstream : DT → DT → List SourceMeasurement) (sid : String)
    (selected : List MeasurementType) (acc : RepoState × Nat) (w : DT × DT) :
    RepoState × Nat :=
  let st := acc.1
  let calls := acc.2
  if has_cached_fetch_window st sid w.1 w.2 then
    let res := needs_direction_recovery_refresh st sid w.1 w.2 selected
    if res.1 then
      (upsert_measurements res.2 sid (upstream w.1 w.2) w.1 w.2, calls + 1)
    else (res.2, calls)
  else (upsert_measurements st sid (upstream w.1 w.2) w.1 w.2, calls + 1)

/-- The window-resolution loop of `DataMixin.get_data`: final store and
number of upstream calls. -/
def get_data_core (upstream : DT → DT → List SourceMeasurement) (sid : String)
    (start_utc end_utc : DT) (selected : List MeasurementType) (st : RepoState) :
    RepoState × Nat :=
  (split_month_windows_covering_range start_utc end_utc).foldl
    (get_data_step upstream sid selected) (st, 0)

/-- `DataMixin.get_data`: station resolution and timezone normalisation are
identity in this model (station ids are passed canonically and all
datetimes are UTC); the `_aggregate`/`_to_output` presentation steps after
the merged read do not affect any retrieval claim and the raw merged read
is returned. -/
def get_data (upstream : DT → DT → List SourceMeasurement) (sid : String)
    (start_utc end_utc : DT) (selected : List MeasurementType) (st : RepoState) :
    Except String (List SourceMeasurement × RepoState × Nat) :=
  if DT.leb end_utc start_utc then
    .error "Start datetime must be before end datetime"
  else
    let fin := get_data_core upstream sid start_utc end_utc selected st
    .ok (get_measurements fin.1 sid start_utc end_utc, fin.1, fin.2)

/-- C9 (counterexample): on the inverted (degenerate) range
2024-01-01 → 2024-01-01 the Window Planner's split operation does not
fail: it returns the empty list of windows. -/
theorem C9_counterexample :
    split_month_windows_covering_range dt2024_01_01 dt2024_01_01 = [] := by
  decide

/-- C9 (amended): for `start_utc >= end_utc` the planner itself returns the
empty window list; the `InvalidRange` failure (`ValueError`, "Start
datetime must be before end datetime") is raised by `get_data`'s guard
before the planner is consulted. -/
theorem C9_amended (s e : DT) (h : DT.leb e s = true)
    (upstream : DT → DT → List SourceMeasurement) (sid : String)
    (selected : List MeasurementType) (st : RepoState) :
    split_month_windows_covering_range s e = [] ∧
    get_data upstream sid s e selected st =
      .error "Start datetime must be before end datetime" := by
  constructor
  · unfold split_month_windows_covering_range
    rw [h]
    rfl
  · unfold get_data
    rw [h]
    rfl

/-- C9 (witness): the amended statement at the degenerate concrete range. -/
theorem C9_witness :
    DT.leb dt2024_01_01 dt2024_01_01 = true ∧
    (split_month_windows_covering_range dt2024_01_01 dt2024_01_01 = [] ∧
    get_data (fun _ _ => []) "89064" dt2024_01_01 dt2024_01_01 [] emptyRepo =
      .error "Start datetime must be before end datetime") :=
  ⟨by decide, C9_amended dt2024_01_01 dt2024_01_01 (by decide) (fun _ _ => []) "89064" []
    emptyRepo⟩

/-- C10 (confirmed): the merged repository read returns exactly the stored
station measurements with `start_utc <= measured_at_utc <= end_utc` — the
end bound inclusive — so a measurement timestamped exactly at `end_utc` is
returned, and a measurement sitting on the shared boundary `b` of two
adjacent windows `[s1, b]` and `[b, e2]` is returned by both reads. -/
theorem C10_inclusive_bounds (st : RepoState) (sid : String) :
    (∀ s e m, m ∈ get_measurements st sid s e ↔
      ((∃ r ∈ st.measurements, r.station_id = sid ∧ r.meas = m) ∧
        DT.leb s m.measured_at_utc = true ∧ DT.leb m.measured_at_utc e = true)) ∧
    (∀ s e m, (∃ r ∈ st.measurements, r.station_id = sid ∧ r.meas = m) →
      m.measured_at_utc = e → DT.leb s e = true →
      m ∈ get_measurements st sid s e) ∧
    (∀ s1 b e2 m, (∃ r ∈ st.measurements, r.station_id = sid ∧ r.meas = m) →
      m.measured_at_utc = b → DT.leb s1 b = true → DT.leb b e2 = true →
      m ∈ get_measurements st sid s1 b ∧ m ∈ get_measurements st sid b e2) := by
  have hmem : ∀ s e m, m ∈ get_measurements st sid s e ↔
      ((∃ r ∈ st.measurements, r.station_id = sid ∧ r.meas = m) ∧
        DT.leb s m.measured_at_utc = true ∧ DT.leb m.measured_at_utc e = true) := by
    intro s e m
    unfold get_measurements
    rw [(List.perm_insertionSort _ _).mem_iff, List.mem_map]
    constructor
    · rintro ⟨r, hr, rfl⟩
      rw [List.mem_filter] at hr
      obtain ⟨hrmem, hcond⟩ := hr
      simp only [Bool.and_eq_true, decide_eq_true_eq] at hcond
      exact ⟨⟨r, hrmem, hcond.1.1, rfl⟩, hcond.1.2, hcond.2⟩
    · rintro ⟨⟨r, hrmem, hsid, rfl⟩, h1, h2⟩
      refine ⟨r, ?_, rfl⟩
      rw [List.mem_filter]
      exact ⟨hrmem, by simp only [Bool.and_eq_true, decide_eq_true_eq]; exact ⟨⟨hsid, h1⟩, h2⟩⟩
  have hrefl : ∀ d : DT, DT.leb d d = true := by
    intro d
    rw [DT.leb_iff_key]
  refine ⟨hmem, ?_, ?_⟩
  · intro s e m hstored hat hse
    rw [hmem]
    exact ⟨hstored, by rw [hat]; exact hse, by rw [hat]; exact hrefl e⟩
  · intro s1 b e2 m hstored hat h1 h2
    constructor
    · rw [hmem]
      exact ⟨hstored, by rw [hat]; exact h1, by rw [hat]; exact hrefl b⟩
    · rw [hmem]
      exact ⟨hstored, by rw [hat]; exact hrefl b, by rw [hat]; exact h2⟩

/-! ## Cache-hit accounting of the retrieval loop -/

theorem DT.leb_refl (d : DT) : DT.leb d d = true := by
  rw [DT.leb_iff_key]

theorem covers_self (sid : String) (s e : DT) (t : Nat) (b : Bool) :
    covers sid s e ⟨sid, s, e, t, b⟩ = true := by
  simp [covers, DT.leb_refl]

theorem upsert_fw_mem_newRec (st : RepoState) (sid : String)
    (rows : List SourceMeasurement) (s e : DT) :
    (⟨sid, s, e, st.clock, true⟩ : FetchWindowRow) ∈
      (upsert_measurements st sid rows s e).fetch_windows := by
  unfold upsert_measurements
  dsimp only
  split_ifs with hany
  · rw [List.any_eq_true] at hany
    obtain ⟨r, hr, hkey⟩ := hany
    rw [decide_eq_true_eq] at hkey
    rw [List.mem_map]
    exact ⟨r, hr, by rw [if_pos hkey]⟩
  · exact List.mem_append_right _ (List.mem_singleton_self _)

theorem upsert_fw_elems (st : RepoState) (sid : String)
    (rows : List SourceMeasurement) (s e : DT) :
    ∀ r ∈ (upsert_measurements st sid rows s e).fetch_windows,
      r = ⟨sid, s, e, st.clock, true⟩ ∨ r ∈ st.fetch_windows := by
  intro r hr
  unfold upsert_measurements at hr
  dsimp only at hr
  split_ifs at hr with hany
  · rw [List.mem_map] at hr
    obtain ⟨r0, hr0, hrim⟩ := hr
    by_cases hkey : r0.station_id = sid ∧ r0.start_utc = s ∧ r0.end_utc = e
    · rw [if_pos hkey] at hrim
      exact Or.inl hrim.symm
    · rw [if_neg hkey] at hrim
      exact Or.inr (hrim ▸ hr0)
  · rcases List.mem_append.mp hr with hold | hnew
    · exact Or.inr hold
    · exact Or.inl (List.mem_singleton.mp hnew)

theorem upsert_fw_append_of_no_match (st : RepoState) (sid : String)
    (rows : List SourceMeasurement) (s e : DT)
    (h : ∀ r ∈ st.fetch_windows, covers sid s e r = false) :
    (upsert_measurements st sid rows s e).fetch_windows =
      st.fetch_windows ++ [⟨sid, s, e, st.clock, true⟩] := by
  unfold upsert_measurements
  dsimp only
  rw [if_neg]
  rw [List.any_eq_true]
  rintro ⟨r, hr, hkey⟩
  rw [decide_eq_true_eq] at hkey
  have hcov : covers sid s e r = true := by
    obtain ⟨h1, h2, h3⟩ := hkey
    simp [covers, h1, h2, h3, DT.leb_refl]
  rw [h r hr] at hcov
  exact Bool.false_ne_true hcov

theorem has_cached_of_mem {st : RepoState} {sid : String} {s e : DT}
    {r : FetchWindowRow} (hr : r ∈ st.fetch_windows) (hc : covers sid s e r = true) :
    has_cached_fetch_window st sid s e = true := by
  unfold has_cached_fetch_window
  rw [List.any_eq_true]
  exact ⟨r, hr, hc⟩

/-- The pairwise ordering the planner guarantees: windows are nonempty and
consecutive months never reach into each other. -/
theorem split_strict {s e : DT} (h : DT.ltb s e = true) :
    (split_month_windows_covering_range s e).Pairwise
      (fun a b : DT × DT => a.2.key ≤ b.1.key) ∧
    (∀ w ∈ split_month_windows_covering_range s e, w.1.key < w.2.key) := by
  have hc : (start_of_month s).IsMonthStart := start_of_month_isMonthStart s
  rw [split_eq_splitLoop h]
  set c := start_of_month s
  set n := ((next_month_start e).monthIdx - (start_of_month s).monthIdx).toNat
  constructor
  · rw [List.pairwise_iff_getElem]
    intro i j hi hj hij
    rw [splitLoop_getElem n c i hi, splitLoop_getElem n c j hj]
    rw [splitLoop_length] at hi hj
    refine monthStart_key_le (nmsIter (i + 1) c) (nmsIter j c)
      (nmsIter_isMonthStart hc (i + 1)) ?_
    rw [nmsIter_monthIdx, nmsIter_monthIdx]
    push_cast
    omega
  · intro w hw
    obtain ⟨k, hk, rfl⟩ := splitLoop_mem_iff.mp hw
    refine key_lt_monthStart (nmsIter (k + 1) c) (nmsIter k c)
      (nmsIter_isMonthStart hc (k + 1)) ?_
    rw [nmsIter_monthIdx, nmsIter_monthIdx]
    push_cast
    omega

/-- When a window is cached and already direction-checked, the loop body of
`get_data` neither calls upstream nor changes the store. -/
theorem get_data_step_skip (upstream : DT → DT → List SourceMeasurement) (sid : String)
    (sel : List MeasurementType) (st : RepoState) (calls : Nat) (w : DT × DT)
    (hc : has_cached_fetch_window st sid w.1 w.2 = true)
    (hchk : is_fetch_window_direction_checked st sid w.1 w.2 = true) :
    get_data_step upstream sid sel (st, calls) w = (st, calls) := by
  have hres : needs_direction_recovery_refresh st sid w.1 w.2 sel = (false, st) := by
    unfold needs_direction_recovery_refresh
    rw [hchk]
    split_ifs with h1 h2 h3 h4 h5 h6 <;> first | rfl | exact absurd rfl h3
  unfold get_data_step
  dsimp only
  rw [hc, hres]
  rfl

theorem get_data_core_zero (upstream : DT → DT → List SourceMeasurement) (sid : String)
    (s e : DT) (sel : List MeasurementType) (st : RepoState)
    (hall : ∀ w ∈ split_month_windows_covering_range s e,
      has_cached_fetch_window st sid w.1 w.2 = true ∧
      is_fetch_window_direction_checked st sid w.1 w.2 = true) :
    get_data_core upstream sid s e sel st = (st, 0) := by
  unfold get_data_core
  generalize hws : split_month_windows_covering_range s e = ws at hall ⊢
  clear hws
  induction ws with
  | nil => rfl
  | cons w rest ih =>
    rw [List.foldl_cons,
      get_data_step_skip upstream sid sel st 0 w (hall w (by simp)).1 (hall w (by simp)).2]
    exact ih (fun w' hw' => hall w' (List.mem_cons_of_mem w hw'))

/-- Processing a strictly ordered window list none of whose members is
covered by an existing record: every window triggers exactly one upstream
call and appends exactly one `direction_checked` fetch-window record. -/
theorem get_data_core_fresh (upstream : DT → DT → List SourceMeasurement) (sid : String)
    (sel : List MeasurementType) :
    ∀ (ws : List (DT × DT)) (st : RepoState) (calls : Nat),
    ws.Pairwise (fun a b : DT × DT => a.2.key ≤ b.1.key) →
    (∀ w ∈ ws, w.1.key < w.2.key) →
    (∀ w ∈ ws, ∀ r ∈ st.fetch_windows, covers sid w.1 w.2 r = false) →
    (ws.foldl (get_data_step upstream sid sel) (st, calls)).2 = calls + ws.length ∧
    ∃ l2 : List FetchWindowRow,
      (ws.foldl (get_data_step upstream sid sel) (st, calls)).1.fetch_windows =
        st.fetch_windows ++ l2 ∧
      l2.length = ws.length ∧
      (∀ r ∈ l2, r.direction_checked = true) ∧
      (∀ w ∈ ws, ∃ t, (⟨sid, w.1, w.2, t, true⟩ : FetchWindowRow) ∈ l2) := by
  intro ws
  induction ws with
  | nil =>
    intro st calls _ _ _
    exact ⟨rfl, [], by simp, rfl, by simp, by simp⟩
  | cons w rest ih =>
    intro st calls hpw hlt hfree
    rw [List.pairwise_cons] at hpw
    have hcached : has_cached_fetch_window st sid w.1 w.2 = false := by
      unfold has_cached_fetch_window
      rw [List.any_eq_false]
      intro r hr
      rw [hfree w (by simp) r hr]
      exact Bool.false_ne_true
    have hstep : get_data_step upstream sid sel (st, calls) w =
        (upsert_measurements st sid (upstream w.1 w.2) w.1 w.2, calls + 1) := by
      unfold get_data_step
      dsimp only
      rw [hcached]
      rfl
    set st1 := upsert_measurements st sid (upstream w.1 w.2) w.1 w.2 with hst1
    have happend : st1.fetch_windows =
        st.fetch_windows ++ [⟨sid, w.1, w.2, st.clock, true⟩] :=
      upsert_fw_append_of_no_match st sid (upstream w.1 w.2) w.1 w.2
        (fun r hr => hfree w (by simp) r hr)
    have hfree1 : ∀ w' ∈ rest, ∀ r ∈ st1.fetch_windows, covers sid w'.1 w'.2 r = false := by
      intro w' hw' r hr
      rw [happend] at hr
      rcases List.mem_append.mp hr with hold | hnew
      · exact hfree w' (List.mem_cons_of_mem w hw') r hold
      · rw [List.mem_singleton] at hnew
        subst hnew
        rw [Bool.eq_false_iff]
        intro hcov
        unfold covers at hcov
        simp only [Bool.and_eq_true, decide_eq_true_eq, DT.leb_iff_key] at hcov
        have h1 := hpw.1 w' hw'
        have h2 := hlt w' (List.mem_cons_of_mem w hw')
        omega
    have hrec := ih st1 (calls + 1) hpw.2
      (fun w' hw' => hlt w' (List.mem_cons_of_mem w hw')) hfree1
    rw [List.foldl_cons, hstep]
    obtain ⟨hcalls, l2, hfw, hlen, hchk, hws⟩ := hrec
    constructor
    · rw [hcalls]
      simp only [List.length_cons]
      omega
    · refine ⟨⟨sid, w.1, w.2, st.clock, true⟩ :: l2, ?_, by simp [hlen], ?_, ?_⟩
      · rw [hfw, happend]
        simp
      · intro r hrm
        rcases List.mem_cons.mp hrm with rfl | hm
        · rfl
        · exact hchk r hm
      · intro w' hw'
        rcases List.mem_cons.mp hw' with rfl | hm
        · exact ⟨st.clock, List.mem_cons_self _ _⟩
        · obtain ⟨t, ht⟩ := hws w' hm
          exact ⟨t, List.mem_cons_of_mem _ ht⟩

/-- Picking the maximal-stamp element: when `rstar` is present and every
other candidate carries a strictly smaller stamp, the fold returns it. -/
theorem pickFold_eq_of_max (rstar : FetchWindowRow) :
    ∀ (l : List FetchWindowRow) (acc : Option FetchWindowRow),
    (acc = some rstar ∨ rstar ∈ l) →
    (∀ b, acc = some b → b = rstar ∨ b.fetched_at < rstar.fetched_at) →
    (∀ r ∈ l, r = rstar ∨ r.fetched_at < rstar.fetched_at) →
    l.foldl
      (fun acc r =>
        match acc with
        | none => some r
        | some b => if b.fetched_at < r.fetched_at then some r else some b)
      acc = some rstar := by
  intro l
  induction l with
  | nil =>
    intro acc hin hacc _
    rcases hin with h | h
    · exact h
    · exact absurd h (List.not_mem_nil rstar)
  | cons a t ih =>
    intro acc hin hacc hl
    rw [List.foldl_cons]
    rcases acc with _ | b
    · refine ih (some a) ?_ ?_ (fun r hr => hl r (List.mem_cons_of_mem a hr))
      · rcases hl a (List.mem_cons_self a t) with rfl | hlt
        · exact Or.inl rfl
        · rcases hin with h | h
          · exact absurd h (by simp)
          · rcases List.mem_cons.mp h with rfl | hm
            · omega
            · exact Or.inr hm
      · intro b hb
        rw [Option.some_inj] at hb
        subst hb
        exact hl a (List.mem_cons_self a t)
    · have hb := hacc b rfl
      have ha := hl a (List.mem_cons_self a t)
      have hstep : ∃ c, (if b.fetched_at < a.fetched_at then some a else some b) = some c ∧
          (c = b ∨ c = a) := by
        split_ifs
        · exact ⟨a, rfl, Or.inr rfl⟩
        · exact ⟨b, rfl, Or.inl rfl⟩
      obtain ⟨c, hceq, hc⟩ := hstep
      simp only
      rw [hceq]
      refine ih (some c) ?_ ?_ (fun r hr => hl r (List.mem_cons_of_mem a hr))
      · by_cases hrt : rstar ∈ t
        · exact Or.inr hrt
        · left
          have hbr : b = rstar ∨ a = rstar := by
            rcases hin with hsome | hmem
            · exact Or.inl (Option.some_inj.mp hsome)
            · rcases List.mem_cons.mp hmem with hh | hh
              · exact Or.inr hh.symm
              · exact absurd hh hrt
          rw [Option.some_inj]
          rcases hbr with hbeq | haeq
          · rcases ha with haeq | halt
            · rcases hc with hcb | hca
              · rw [hcb, hbeq]
              · rw [hca, haeq]
            · have hnot : ¬b.fetched_at < a.fetched_at := by rw [hbeq]; omega
              rw [if_neg hnot] at hceq
              rw [← Option.some_inj.mp hceq, hbeq]
          · rcases hb with hbeq | hblt
            · rcases hc with hcb | hca
              · rw [hcb, hbeq]
              · rw [hca, haeq]
            · have hyes : b.fetched_at < a.fetched_at := by rw [haeq]; omega
              rw [if_pos hyes] at hceq
              rw [← Option.some_inj.mp hceq, haeq]
      · intro b' hb'
        rw [Option.some_inj] at hb'
        subst hb'
        rcases hc with rfl | rfl
        · exact hb
        · exact ha

/-- Every record a completed window loop has written is flagged, so the
repository reports the window as direction-checked. -/
theorem isChecked_of_allChecked (st : RepoState) (sid : String) (s e : DT)
    (hchk : ∀ r ∈ st.fetch_windows, r.direction_checked = true)
    (hc : has_cached_fetch_window st sid s e = true) :
    is_fetch_window_direction_checked st sid s e = true := by
  unfold has_cached_fetch_window at hc
  rw [List.any_eq_true] at hc
  obtain ⟨r0, hr0, hcov0⟩ := hc
  unfold is_fetch_window_direction_checked latestCovering
  have hmem0 : r0 ∈ st.fetch_windows.filter (covers sid s e) :=
    List.mem_filter.mpr ⟨hr0, hcov0⟩
  have hpick : ∀ (l : List FetchWindowRow) (acc : Option FetchWindowRow),
      (∀ b, acc = some b → b.direction_checked = true) →
      (∀ r ∈ l, r.direction_checked = true) →
      (acc ≠ none ∨ l ≠ []) →
      ∃ rr, l.foldl
        (fun acc r =>
          match acc with
          | none => some r
          | some b => if b.fetched_at < r.fetched_at then some r else some b)
        acc = some rr ∧ rr.direction_checked = true := by
    intro l
    induction l with
    | nil =>
      intro acc hacc _ hne
      rcases acc with _ | b
      · rcases hne with h | h
        · exact absurd rfl h
        · exact absurd rfl h
      · exact ⟨b, rfl, hacc b rfl⟩
    | cons a t ih =>
      intro acc hacc hl _
      rw [List.foldl_cons]
      rcases acc with _ | b
      · exact ih (some a)
          (fun b hb => by rw [Option.some_inj] at hb; subst hb; exact hl a (by simp))
          (fun r hr => hl r (List.mem_cons_of_mem a hr)) (Or.inl (by simp))
      · simp only
        have : ∀ b', (if b.fetched_at < a.fetched_at then some a else some b) = some b' →
            b'.direction_checked = true := by
          intro b' hb'
          split_ifs at hb' <;> rw [Option.some_inj] at hb' <;> subst hb'
          · exact hl a (by simp)
          · exact hacc b rfl
        refine ih _ this (fun r hr => hl r (List.mem_cons_of_mem a hr)) (Or.inl ?_)
        split_ifs <;> simp
  obtain ⟨rr, hfold, hrr⟩ := hpick (st.fetch_windows.filter (covers sid s e)) none
    (fun b hb => by cases hb)
    (fun r hr => hchk r (List.mem_filter.mp hr).1)
    (Or.inr (List.ne_nil_of_mem hmem0))
  rw [hfold]
  exact hrr

/-- C2 (counterexample): a getData call spanning exactly 3 full months,
`[2024-01-01, 2024-04-01)`, against an empty cache plans 4 windows — the
planner also includes April, the month whose first instant is `end_utc` —
and therefore issues 4 upstream calls and persists 4 fetch-window records,
not 3 (here with an upstream that returns an empty row list, which is
still persisted per window). -/
theorem C2_counterexample :
    DT.ltb dt2024_01_01 dt2024_04_01 = true ∧
    (split_month_windows_covering_range dt2024_01_01 dt2024_04_01).length = 4 ∧
    (get_data_core (fun _ _ => []) "89064" dt2024_01_01 dt2024_04_01 [] emptyRepo).2 = 4 ∧
    (get_data_core (fun _ _ => []) "89064" dt2024_01_01 dt2024_04_01 []
      emptyRepo).1.fetch_windows.length = 4 := by
  decide

/-- C2 (amended): getData issues zero upstream calls when every planned
window has a cached record that is direction-checked — in particular when
immediately repeating a completed call, since persisting a window always
marks it `direction_checked`; against an empty fetch-window cache it
issues exactly one upstream call and persists exactly one fetch-window
record per *planned* window, and a repeat of the same call then issues
zero.  The planned count is 3 for `[2024-01-01, 2024-03-15)` but 4 for the
exactly-three-full-month range `[2024-01-01, 2024-04-01)`. -/
theorem C2_amended :
    (∀ (u : DT → DT → List SourceMeasurement) (sid : String) (s e : DT)
        (sel : List MeasurementType) (st : RepoState),
      (∀ w ∈ split_month_windows_covering_range s e,
        has_cached_fetch_window st sid w.1 w.2 = true ∧
        is_fetch_window_direction_checked st sid w.1 w.2 = true) →
      (get_data_core u sid s e sel st).2 = 0) ∧
    (∀ (u : DT → DT → List SourceMeasurement) (sid : String) (s e : DT)
        (sel : List MeasurementType) (st : RepoState),
      DT.ltb s e = true → st.fetch_windows = [] →
      (get_data_core u sid s e sel st).2 =
        (split_month_windows_covering_range s e).length ∧
      (get_data_core u sid s e sel st).1.fetch_windows.length =
        (split_month_windows_covering_range s e).length ∧
      (get_data_core u sid s e sel ((get_data_core u sid s e sel st).1)).2 = 0) ∧
    (split_month_windows_covering_range dt2024_01_01 dt2024_03_15).length = 3 ∧
    (split_month_windows_covering_range dt2024_01_01 dt2024_04_01).length = 4 := by
  refine ⟨?_, ?_, by decide, by decide⟩
  · intro u sid s e sel st hall
    rw [get_data_core_zero u sid s e sel st hall]
  · intro u sid s e sel st h hempty
    obtain ⟨hpw, hlt⟩ := split_strict h
    have hfree : ∀ w ∈ split_month_windows_covering_range s e,
        ∀ r ∈ st.fetch_windows, covers sid w.1 w.2 r = false := by
      intro w _ r hr
      rw [hempty] at hr
      exact absurd hr (List.not_mem_nil r)
    have main := get_data_core_fresh u sid sel
      (split_month_windows_covering_range s e) st 0 hpw hlt hfree
    have hcore : get_data_core u sid s e sel st =
        (split_month_windows_covering_range s e).foldl
          (get_data_step u sid sel) (st, 0) := rfl
    obtain ⟨hcalls, l2, hfw, hlen, hchk, hws⟩ := main
    have hfw1 : (get_data_core u sid s e sel st).1.fetch_windows = l2 := by
      rw [hcore, hfw, hempty]
      rfl
    refine ⟨by rw [hcore, hcalls]; omega, by rw [hfw1, hlen], ?_⟩
    have hall1 : ∀ w ∈ split_month_windows_covering_range s e,
        has_cached_fetch_window (get_data_core u sid s e sel st).1 sid w.1 w.2 = true ∧
        is_fetch_window_direction_checked (get_data_core u sid s e sel st).1 sid
          w.1 w.2 = true := by
      intro w hw
      obtain ⟨t, ht⟩ := hws w hw
      have hcached : has_cached_fetch_window (get_data_core u sid s e sel st).1 sid
          w.1 w.2 = true :=
        has_cached_of_mem (by rw [hfw1]; exact ht) (covers_self sid w.1 w.2 t true)
      refine ⟨hcached, isChecked_of_allChecked _ sid w.1 w.2 ?_ hcached⟩
      intro r hr
      rw [hfw1] at hr
      exact hchk r hr
    rw [get_data_core_zero u sid s e sel _ hall1]

/-- C2 (witness): the amended statement evaluated for the 3-window range
2024-01-01 → 2024-03-15 against the empty repository. -/
theorem C2_witness :
    DT.ltb dt2024_01_01 dt2024_03_15 = true ∧ emptyRepo.fetch_windows = [] ∧
    ((get_data_core (fun _ _ => []) "89064" dt2024_01_01 dt2024_03_15 [] emptyRepo).2 =
      (split_month_windows_covering_range dt2024_01_01 dt2024_03_15).length ∧
    (get_data_core (fun _ _ => []) "89064" dt2024_01_01 dt2024_03_15 []
        emptyRepo).1.fetch_windows.length =
      (split_month_windows_covering_range dt2024_01_01 dt2024_03_15).length ∧
    (get_data_core (fun _ _ => []) "89064" dt2024_01_01 dt2024_03_15 []
      ((get_data_core (fun _ _ => []) "89064" dt2024_01_01 dt2024_03_15 []
        emptyRepo).1)).2 = 0) :=
  ⟨by decide, rfl,
    C2_amended.2.1 (fun _ _ => []) "89064" dt2024_01_01 dt2024_03_15 [] emptyRepo
      (by decide) rfl⟩

/-! ## Direction-recovery refresh (C3) -/

theorem needs_true_state (st : RepoState) (sid : String) (s e : DT)
    (sel : List MeasurementType)
    (h : (needs_direction_recovery_refresh st sid s e sel).1 = true) :
    (needs_direction_recovery_refresh st sid s e sel).2 = st := by
  unfold needs_direction_recovery_refresh at h ⊢
  split_ifs at h ⊢
  rfl

/-- After `upsert_measurements` persists a window, the most recently
fetched covering record is the fresh one, which is flagged
`direction_checked`. -/
theorem isChecked_after_upsert (st : RepoState) (sid : String)
    (rows : List SourceMeasurement) (s e : DT)
    (hwf : ∀ r ∈ st.fetch_windows, r.fetched_at < st.clock) :
    is_fetch_window_direction_checked (upsert_measurements st sid rows s e) sid s e =
      true := by
  have hmem : (⟨sid, s, e, st.clock, true⟩ : FetchWindowRow) ∈
      (upsert_measurements st sid rows s e).fetch_windows :=
    upsert_fw_mem_newRec st sid rows s e
  unfold is_fetch_window_direction_checked latestCovering
  have hfmem : (⟨sid, s, e, st.clock, true⟩ : FetchWindowRow) ∈
      (upsert_measurements st sid rows s e).fetch_windows.filter (covers sid s e) :=
    List.mem_filter.mpr ⟨hmem, covers_self sid s e st.clock true⟩
  have hmax : ∀ r ∈ (upsert_measurements st sid rows s e).fetch_windows.filter
      (covers sid s e),
      r = ⟨sid, s, e, st.clock, true⟩ ∨
        r.fetched_at < (⟨sid, s, e, st.clock, true⟩ : FetchWindowRow).fetched_at := by
    intro r hr
    rcases upsert_fw_elems st sid rows s e r (List.mem_filter.mp hr).1 with heq | hold
    · exact Or.inl heq
    · exact Or.inr (hwf r hold)
  rw [pickFold_eq_of_max ⟨sid, s, e, st.clock, true⟩ _ none (Or.inr hfmem)
    (fun b hb => by cases hb) hmax]

def dt2024_02_01 : DT := ⟨2024, 2, 1, 0, 0, 0, 0, by omega⟩
def dt2024_01_02 : DT := ⟨2024, 1, 2, 0, 0, 0, 0, by omega⟩
def dt2024_01_03 : DT := ⟨2024, 1, 3, 0, 0, 0, 0, by omega⟩

/-- A cached January window that is not yet direction-checked, whose rows
are one speed-only measurement and one measurement with neither speed nor
direction. -/
def repoC3 : RepoState :=
  ⟨[⟨"89064", ⟨dt2024_01_02, none, none, some 5, none⟩⟩,
    ⟨"89064", ⟨dt2024_01_03, none, none, none, none⟩⟩],
   [⟨"89064", dt2024_01_01, dt2024_02_01, 0, false⟩], 1⟩

/-- C3 (counterexample): with direction requested, the window not yet
direction-checked, and cached rows of which one has speed (and no
direction) while another lacks speed entirely, the code does trigger the
recovery re-fetch even though not all cached rows have speed — so
"re-fetched exactly when ... the cached rows for that window all have
speed but none have direction" does not describe the code. -/
theorem C3_counterexample :
    (needs_direction_recovery_refresh repoC3 "89064" dt2024_01_01 dt2024_02_01
      [MeasurementType.direction]).1 = true ∧
    ¬(∀ r ∈ get_measurements repoC3 "89064" dt2024_01_01 dt2024_02_01,
        r.speed_mps ≠ none) := by
  decide

/-- C3 (amended): a cached window is re-fetched exactly when the caller
requested direction data (or all fields), the station is one of the
selectable meteorological stations, the window is not yet
`direction_checked`, and the cached rows for the window contain at least
one row with speed while no row that has speed has direction; in every
other trusted case with direction requested the flag is set, and the
recovery fetch happens at most once per window: persisting the re-fetched
window stamps a `direction_checked` record, after which the window is
never re-fetched for this reason again. -/
theorem C3_amended (st : RepoState) (sid : String) (s e : DT)
    (sel : List MeasurementType)
    (hwf : ∀ r ∈ st.fetch_windows, r.fetched_at < st.clock) :
    ((needs_direction_recovery_refresh st sid s e sel).1 = true ↔
      ((sel = [] ∨ MeasurementType.direction ∈ sel) ∧
       sid ∈ selectable_meteo_station_ids ∧
       is_fetch_window_direction_checked st sid s e = false ∧
       (∃ r ∈ get_measurements st sid s e, r.speed_mps.isSome = true) ∧
       (∀ r ∈ get_measurements st sid s e, r.speed_mps.isSome = true →
         r.direction_deg.isSome = false))) ∧
    ((needs_direction_recovery_refresh st sid s e sel).1 = true →
      ∀ rows : List SourceMeasurement,
        is_fetch_window_direction_checked
          (upsert_measurements (needs_direction_recovery_refresh st sid s e sel).2
            sid rows s e) sid s e = true ∧
        (needs_direction_recovery_refresh
          (upsert_measurements (needs_direction_recovery_refresh st sid s e sel).2
            sid rows s e) sid s e sel).1 = false) := by
  constructor
  · unfold needs_direction_recovery_refresh
    by_cases h1 : ¬sel.isEmpty = true ∧ MeasurementType.direction ∉ sel
    · rw [if_pos h1]
      refine iff_of_false (by simp) ?_
      rintro ⟨hsel, -⟩
      rcases hsel with hnil | hdir
      · rw [← List.isEmpty_iff] at hnil
        exact h1.1 hnil
      · exact h1.2 hdir
    · rw [if_neg h1]
      by_cases h2 : sid ∉ selectable_meteo_station_ids
      · rw [if_pos h2]
        refine iff_of_false (by simp) ?_
        rintro ⟨-, hmem, -⟩
        exact h2 hmem
      · rw [if_neg h2]
        by_cases h3 : is_fetch_window_direction_checked st sid s e = true
        · rw [if_pos h3]
          refine iff_of_false (by simp) ?_
          rintro ⟨-, -, hfalse, -⟩
          rw [h3] at hfalse
          exact absurd hfalse (by simp)
        · rw [if_neg h3]
          by_cases h4 : (get_measurements st sid s e).isEmpty = true
          · rw [if_pos h4]
            refine iff_of_false (by simp) ?_
            rintro ⟨-, -, -, ⟨r, hr, -⟩, -⟩
            rw [List.isEmpty_iff] at h4
            rw [h4] at hr
            exact List.not_mem_nil r hr
          · rw [if_neg h4]
            by_cases h5 : ((get_measurements st sid s e).filter
                (fun r => r.speed_mps.isSome)).isEmpty = true
            · rw [if_pos h5]
              refine iff_of_false (by simp) ?_
              rintro ⟨-, -, -, ⟨r, hr, hspeed⟩, -⟩
              rw [List.isEmpty_iff, List.filter_eq_nil_iff] at h5
              exact h5 r hr hspeed
            · rw [if_neg h5]
              by_cases h6 : ((get_measurements st sid s e).filter
                  (fun r => r.speed_mps.isSome)).any
                  (fun r => r.direction_deg.isSome) = true
              · rw [if_pos h6]
                refine iff_of_false (by simp) ?_
                rintro ⟨-, -, -, -, hnone⟩
                rw [List.any_eq_true] at h6
                obtain ⟨r, hr, hdir⟩ := h6
                rw [List.mem_filter] at hr
                have hh := hnone r hr.1 hr.2
                rw [hdir] at hh
                exact absurd hh (by simp)
              · rw [if_neg h6]
                refine iff_of_true rfl ?_
                refine ⟨?_, by simpa using h2, by simpa using h3, ?_, ?_⟩
                · rw [not_and] at h1
                  by_cases hnil : sel = []
                  · exact Or.inl hnil
                  · refine Or.inr ?_
                    have hne : ¬sel.isEmpty = true := by
                      simpa [List.isEmpty_iff] using hnil
                    by_contra hdir
                    exact (h1 hne) hdir
                · have hne : (get_measurements st sid s e).filter
                      (fun r => r.speed_mps.isSome) ≠ [] := by
                    simpa [List.isEmpty_iff] using h5
                  obtain ⟨r, hr⟩ := List.exists_mem_of_ne_nil _ hne
                  rw [List.mem_filter] at hr
                  exact ⟨r, hr.1, hr.2⟩
                · intro r hr hspeed
                  rw [Bool.not_eq_true, List.any_eq_false] at h6
                  have hh := h6 r (List.mem_filter.mpr ⟨hr, hspeed⟩)
                  simpa using hh
  · intro htrue rows
    rw [needs_true_state st sid s e sel htrue]
    have hchk := isChecked_after_upsert st sid rows s e hwf
    refine ⟨hchk, ?_⟩
    unfold needs_direction_recovery_refresh
    rw [hchk]
    split_ifs with g1 g2 g3 <;> first | rfl | exact absurd rfl g3

/-- C3 (witness): the amended characterisation evaluated on the concrete
cached state `repoC3` (where the recovery refresh fires and, after the
persist, can never fire again). -/
theorem C3_witness :
    (∀ r ∈ repoC3.fetch_windows, r.fetched_at < repoC3.clock) ∧
    (((needs_direction_recovery_refresh repoC3 "89064" dt2024_01_01 dt2024_02_01
        [MeasurementType.direction]).1 = true ↔
      (([MeasurementType.direction] = ([] : List MeasurementType) ∨
        MeasurementType.direction ∈ [MeasurementType.direction]) ∧
       "89064" ∈ selectable_meteo_station_ids ∧
       is_fetch_window_direction_checked repoC3 "89064" dt2024_01_01 dt2024_02_01 =
         false ∧
       (∃ r ∈ get_measurements repoC3 "89064" dt2024_01_01 dt2024_02_01,
         r.speed_mps.isSome = true) ∧
       (∀ r ∈ get_measurements repoC3 "89064" dt2024_01_01 dt2024_02_01,
         r.speed_mps.isSome = true → r.direction_deg.isSome = false))) ∧
    ((needs_direction_recovery_refresh repoC3 "89064" dt2024_01_01 dt2024_02_01
        [MeasurementType.direction]).1 = true →
      ∀ rows : List SourceMeasurement,
        is_fetch_window_direction_checked
          (upsert_measurements
            (needs_direction_recovery_refresh repoC3 "89064" dt2024_01_01 dt2024_02_01
              [MeasurementType.direction]).2 "89064" rows dt2024_01_01 dt2024_02_01)
          "89064" dt2024_01_01 dt2024_02_01 = true ∧
        (needs_direction_recovery_refresh
          (upsert_measurements
            (needs_direction_recovery_refresh repoC3 "89064" dt2024_01_01 dt2024_02_01
              [MeasurementType.direction]).2 "89064" rows dt2024_01_01 dt2024_02_01)
          "89064" dt2024_01_01 dt2024_02_01 [MeasurementType.direction]).1 = false)) :=
  ⟨by decide,
    C3_amended repoC3 "89064" dt2024_01_01 dt2024_02_01 [MeasurementType.direction]
      (by decide)⟩

/-! ## Circular mean (math_utils.avg_angle_deg) — C6

Trigonometry is modelled over the exact reals: `math.radians a` is
`a·π/180`, `math.atan2 y x` is the argument of the complex number
`x + y·i` (both lie in `(-π, π]`), the literal `3.141592653589793` of the
source is the decimal rendering of π, Python's float `%` with a positive
modulus is `a - b·⌊a/b⌋`, and `round(x, 3)` is rounding to thousandths
(the claims' values are exact, so ties between rounding conventions never
arise). -/

noncomputable def pymodR (a b : ℝ) : ℝ := a - b * ⌊a / b⌋

noncomputable def round3R (x : ℝ) : ℝ := (round (x * 1000) : ℤ) / 1000

noncomputable def radiansR (a : ℚ) : ℝ := (a : ℝ) * Real.pi / 180

noncomputable def atan2R (y x : ℝ) : ℝ := Complex.arg ⟨x, y⟩

open Classical in
/-- `math_utils.avg_angle_deg`: filter out `None`, convert each angle to a
unit vector, sum, return `None` on the exactly-zero vector sum, otherwise
re-derive the angle and normalise it to `[0, 360)`. -/
noncomputable def avg_angle_deg (values : List (Option ℚ)) : Option ℝ :=
  if values.filterMap id = [] then none
  else if ((values.filterMap id).map (fun a => Real.cos (radiansR a))).sum = 0 ∧
      ((values.filterMap id).map (fun a => Real.sin (radiansR a))).sum = 0 then none
  else some (round3R (pymodR
    (atan2R ((values.filterMap id).map (fun a => Real.sin (radiansR a))).sum
        ((values.filterMap id).map (fun a => Real.cos (radiansR a))).sum
      * 180 / Real.pi) 360))

theorem radiansR_350 : radiansR 350 = 2 * Real.pi - radiansR 10 := by
  unfold radiansR
  push_cast
  ring

/-- C6 (confirmed): the circular mean maps `{350°, 10°}` to `0°` (the unit
vectors sum to a positive multiple of the x-axis), and maps `{0°, 180°}`
to `None`, because those unit vectors cancel exactly. -/
theorem C6_circular_mean :
    avg_angle_deg [some 350, some 10] = some 0 ∧
    avg_angle_deg [some 0, some 180] = none := by
  constructor
  · have hfm : ([some 350, some 10] : List (Option ℚ)).filterMap id = [350, 10] := rfl
    unfold avg_angle_deg
    rw [hfm]
    have hy : (([350, 10] : List ℚ).map (fun a => Real.sin (radiansR a))).sum = 0 := by
      simp only [List.map_cons, List.map_nil, List.sum_cons, List.sum_nil]
      rw [radiansR_350, Real.sin_sub, Real.sin_two_pi, Real.cos_two_pi]
      ring
    have hcos10 : 0 < Real.cos (radiansR 10) := by
      have h10 : radiansR 10 = Real.pi / 18 := by
        unfold radiansR
        push_cast
        ring
      rw [h10]
      refine Real.cos_pos_of_mem_Ioo ⟨?_, ?_⟩ <;> linarith [Real.pi_pos]
    have hx : (([350, 10] : List ℚ).map (fun a => Real.cos (radiansR a))).sum =
        2 * Real.cos (radiansR 10) := by
      simp only [List.map_cons, List.map_nil, List.sum_cons, List.sum_nil]
      rw [radiansR_350, Real.cos_sub, Real.cos_two_pi, Real.sin_two_pi]
      ring
    rw [if_neg (by simp), if_neg (by rw [hx]; rintro ⟨hc, -⟩; nlinarith), hy, hx]
    have harg : atan2R 0 (2 * Real.cos (radiansR 10)) = 0 := by
      unfold atan2R
      have hmk : (⟨2 * Real.cos (radiansR 10), 0⟩ : ℂ) =
          ((2 * Real.cos (radiansR 10) : ℝ) : ℂ) := rfl
      rw [hmk]
      exact Complex.arg_ofReal_of_nonneg (by positivity)
    rw [harg]
    have hzero : (0 : ℝ) * 180 / Real.pi = 0 := by
      rw [zero_mul, zero_div]
    rw [hzero]
    have hmod : pymodR 0 360 = 0 := by
      unfold pymodR
      norm_num
    rw [hmod]
    unfold round3R
    norm_num
  · have hfm : ([some 0, some 180] : List (Option ℚ)).filterMap id = [0, 180] := rfl
    unfold avg_angle_deg
    rw [hfm]
    have hpi : radiansR 180 = Real.pi := by
      unfold radiansR
      push_cast
      ring
    have hzero : radiansR 0 = 0 := by
      unfold radiansR
      push_cast
      ring
    have hx : (([0, 180] : List ℚ).map (fun a => Real.cos (radiansR a))).sum = 0 := by
      simp only [List.map_cons, List.map_nil, List.sum_cons, List.sum_nil]
      rw [hpi, hzero, Real.cos_zero, Real.cos_pi]
      ring
    have hy : (([0, 180] : List ℚ).map (fun a => Real.sin (radiansR a))).sum = 0 := by
      simp only [List.map_cons, List.map_nil, List.sum_cons, List.sum_nil]
      rw [hpi, hzero, Real.sin_zero, Real.sin_pi]
      ring
    rw [if_neg (by simp), if_pos ⟨hx, hy⟩]

/-! ## Wind rose (playback/timeframes.py `_build_wind_rose` and the
playback.py variant) — C5 -/

/-- Python's `%` on rationals with a positive modulus. -/
def pymodQ (a b : ℚ) : ℚ := a - b * ⌊a / b⌋

/-- `round(x, 3)` over rationals. -/
def round3Q (x : ℚ) : ℚ := (round (x * 1000) : ℤ) / 1000

/-- Modelled from the spec: `wind_toward_direction_deg` is imported from
`math_utils` by the wind-rose code of `playback/timeframes.py`, but its
definition is not among the sources.  The spec treats the wind rose as a
histogram of the reported wind bearing (§3: `direction_deg` is the wind
bearing in `[0, 360)`; §8: a set of points at bearing 180° has
`dominantSector = "S"`), and the sibling rose implementation in
`playback.py` bins `direction_deg % 360` directly, so the function is
modelled as `None`-propagating normalisation of the bearing mod 360. -/
def wind_toward_direction_deg : Option ℚ → Option ℚ
  | none => none
  | some d => some (pymodQ d 360)

/-- `models.measurement.OutputMeasurement` (the fields the analytics
read). -/
structure OutputMeasurement where
  datetime_cet : DT
  temperature_c : Option ℚ
  pressure_hpa : Option ℚ
  speed_mps : Option ℚ
  direction_deg : Option ℚ
deriving DecidableEq

structure RoseBin where
  sector : String
  calm : Nat
  breeze : Nat
  strong : Nat
  gale : Nat
  totalCount : Nat
deriving DecidableEq

def roseSectors : List String :=
  ["N", "NNE", "NE", "ENE", "E", "ESE", "SE", "SSE",
   "S", "SSW", "SW", "WSW", "W", "WNW", "NW", "NNW"]

def initBins : List RoseBin := roseSectors.map (fun s => ⟨s, 0, 0, 0, 0, 0⟩)

/-- `index = int(((direction + 11.25) % 360) // 22.5)`; the operand is
nonnegative, so `int` truncation is the floor. -/
def sectorIndex (direction : ℚ) : Nat := (⌊pymodQ (direction + 11.25) 360 / 22.5⌋).toNat

/-- The per-point speed-bucket increment (`calm < 3`, `breeze < 8`,
`strong < 12`, `gale` otherwise); the returned flag reports whether the
point was counted calm. -/
def addToBin (b : RoseBin) (speed : ℚ) : RoseBin × Bool :=
  if speed < 3 then ({ b with calm := b.calm + 1, totalCount := b.totalCount + 1 }, true)
  else if speed < 8 then
    ({ b with breeze := b.breeze + 1, totalCount := b.totalCount + 1 }, false)
  else if speed < 12 then
    ({ b with strong := b.strong + 1, totalCount := b.totalCount + 1 }, false)
  else ({ b with gale := b.gale + 1, totalCount := b.totalCount + 1 }, false)

/-- Loop body of the timeframes `_build_wind_rose`: skip points without
direction or speed, convert the bearing, bin, and count directional/calm
points.  State: (bins, directional_points, calm_points). -/
def roseStep (acc : List RoseBin × Nat × Nat) (row : OutputMeasurement) :
    List RoseBin × Nat × Nat :=
  match row.direction_deg, row.speed_mps with
  | some d, some speed =>
    match wind_toward_direction_deg (some d) with
    | none => acc
    | some direction =>
      match acc.1[sectorIndex direction]? with
      | none => acc
      | some b =>
        (acc.1.set (sectorIndex direction) (addToBin b speed).1, acc.2.1 + 1,
          if (addToBin b speed).2 then acc.2.2 + 1 else acc.2.2)
  | _, _ => acc

/-- Loop body of the `playback.py` `_build_wind_rose`: identical except the
bearing is used directly (`direction_deg % 360`). -/
def roseStepPlayback (acc : List RoseBin × Nat × Nat) (row : OutputMeasurement) :
    List RoseBin × Nat × Nat :=
  match row.direction_deg, row.speed_mps with
  | some d, some speed =>
    match acc.1[sectorIndex (pymodQ d 360)]? with
    | none => acc
    | some b =>
      (acc.1.set (sectorIndex (pymodQ d 360)) (addToBin b speed).1, acc.2.1 + 1,
        if (addToBin b speed).2 then acc.2.2 + 1 else acc.2.2)
  | _, _ => acc

/-- `max(bins, key=totalCount)`: Python's `max` keeps the first maximal
element; only a strictly greater key replaces the candidate. -/
def pythonMaxBins (bins : List RoseBin) : Option RoseBin :=
  bins.foldl
    (fun acc b =>
      match acc with
      | none => some b
      | some a => if b.totalCount > a.totalCount then some b else some a)
    none

structure WindRoseSummary where
  dominantSector : Option String
  directionalConcentration : Option ℚ
  calmShare : Option ℚ
deriving DecidableEq

/-- Assemble the summary from the loop state (shared by both rose
implementations, whose dominant/concentration/calm-share logic agrees). -/
def roseSummarize (res : List RoseBin × Nat × Nat) : WindRoseSummary :=
  match pythonMaxBins res.1 with
  | none =>
    ⟨none, none,
      if res.2.1 > 0 then some (round3Q ((res.2.2 : ℚ) / (res.2.1 : ℚ))) else none⟩
  | some dominant =>
    ⟨if dominant.totalCount > 0 then some dominant.sector else none,
     if res.2.1 > 0 then some (round3Q ((dominant.totalCount : ℚ) / (res.2.1 : ℚ)))
     else none,
     if res.2.1 > 0 then some (round3Q ((res.2.2 : ℚ) / (res.2.1 : ℚ))) else none⟩

/-- `PlaybackTimeframesMixin._build_wind_rose` (the variant reached through
the service's mixin resolution). -/
def build_wind_rose (rows : List OutputMeasurement) : WindRoseSummary :=
  roseSummarize (rows.foldl roseStep (initBins, 0, 0))

/-- `PlaybackAnalyticsMixin._build_wind_rose` of `playback.py` (the sibling
implementation binning the bearing directly). -/
def build_wind_rose_playback (rows : List OutputMeasurement) : WindRoseSummary :=
  roseSummarize (rows.foldl roseStepPlayback (initBins, 0, 0))

def roseBinS (n : Nat) : RoseBin := ⟨"S", 0, n, 0, 0, n⟩

theorem roseFold_south (step : (List RoseBin × Nat × Nat) → OutputMeasurement →
      (List RoseBin × Nat × Nat))
    (hstep : ∀ acc r, r.direction_deg = some 180 → r.speed_mps = some 6 →
      step acc r = roseStep acc r) :
    ∀ (rows : List OutputMeasurement),
    (∀ r ∈ rows, r.direction_deg = some 180 ∧ r.speed_mps = some 6) →
    ∀ n : Nat,
    rows.foldl step (initBins.set 8 (roseBinS n), n, 0) =
      (initBins.set 8 (roseBinS (n + rows.length)), n + rows.length, 0) := by
  intro rows
  induction rows with
  | nil =>
    intro _ n
    simp
  | cons r rest ih =>
    intro hall n
    obtain ⟨hd, hs⟩ := hall r (List.mem_cons_self r rest)
    rw [List.foldl_cons, hstep _ r hd hs]
    have htoward : wind_toward_direction_deg (some 180) = some 180 := by
      have hfl : ⌊(180 : ℚ) / 360⌋ = 0 := by
        rw [Int.floor_eq_zero_iff]
        constructor <;> norm_num
      show some (pymodQ 180 360) = some 180
      unfold pymodQ
      rw [hfl]
      norm_num
    have hidx : sectorIndex 180 = 8 := by
      unfold sectorIndex pymodQ
      have hfl1 : ⌊((180 : ℚ) + 11.25) / 360⌋ = 0 := by
        rw [Int.floor_eq_zero_iff]
        constructor <;> norm_num
      rw [hfl1]
      have hfl2 : ⌊((180 : ℚ) + 11.25 - 360 * ((0 : ℤ) : ℚ)) / 22.5⌋ = 8 := by
        rw [Int.floor_eq_iff]
        constructor <;> norm_num
      rw [hfl2]
      rfl
    have hget : (initBins.set 8 (roseBinS n))[8]? = some (roseBinS n) := by
      rw [List.getElem?_set_self (by decide)]
    have hadd : addToBin (roseBinS n) 6 = (roseBinS (n + 1), false) := by
      unfold addToBin roseBinS
      rw [if_neg (by norm_num), if_pos (by norm_num)]
    have hstep1 : roseStep (initBins.set 8 (roseBinS n), n, 0) r =
        (initBins.set 8 (roseBinS (n + 1)), n + 1, 0) := by
      unfold roseStep
      simp only [hd, hs, htoward, hidx, hget, hadd, List.set_set, Bool.false_eq_true,
        if_false]
    have harith : n + 1 + rest.length = n + (r :: rest).length := by
      rw [List.length_cons]
      omega
    rw [hstep1, ih (fun r' hr' => hall r' (List.mem_cons_of_mem r hr')) (n + 1), harith]

theorem pythonMaxBins_south (k : Nat) (hk : 0 < k) :
    pythonMaxBins (initBins.set 8 (roseBinS k)) = some (roseBinS k) := by
  obtain ⟨m, rfl⟩ : ∃ m, k = m + 1 := ⟨k - 1, by omega⟩
  unfold pythonMaxBins initBins roseSectors
  simp only [List.map_cons, List.map_nil, List.set_cons_succ, List.set_cons_zero,
    List.foldl_cons, List.foldl_nil]
  norm_num [roseBinS]

/-- C5 (confirmed): every non-empty set of observations all at bearing
180° with speed 6 m/s yields `dominantSector = "S"`,
`directionalConcentration = 1.0` and `calmShare = 0.0` — in both wind-rose
implementations. -/
theorem C5_wind_rose (rows : List OutputMeasurement) (hne : rows ≠ [])
    (hall : ∀ r ∈ rows, r.direction_deg = some 180 ∧ r.speed_mps = some 6) :
    (build_wind_rose rows).dominantSector = some "S" ∧
    (build_wind_rose rows).directionalConcentration = some 1 ∧
    (build_wind_rose rows).calmShare = some 0 ∧
    (build_wind_rose_playback rows).dominantSector = some "S" ∧
    (build_wind_rose_playback rows).directionalConcentration = some 1 ∧
    (build_wind_rose_playback rows).calmShare = some 0 := by
  have hlen : 0 < rows.length := List.length_pos.mpr hne
  have hinit : initBins = initBins.set 8 (roseBinS 0) := rfl
  have round3Q_one : round3Q 1 = 1 := by
    unfold round3Q
    rw [one_mul, round_eq]
    have h : ⌊(1000 : ℚ) + 1 / 2⌋ = 1000 := by
      rw [Int.floor_eq_iff]
      constructor <;> norm_num
    rw [h]
    norm_num
  have round3Q_zero : round3Q 0 = 0 := by
    unfold round3Q
    rw [zero_mul, round_zero]
    norm_num
  have hsummary : roseSummarize (initBins.set 8 (roseBinS rows.length), rows.length, 0) =
      ⟨some "S", some 1, some 0⟩ := by
    have hq : (rows.length : ℚ) ≠ 0 := by
      exact_mod_cast Nat.pos_iff_ne_zero.mp hlen
    simp only [roseSummarize, pythonMaxBins_south rows.length hlen]
    rw [if_pos (show (roseBinS rows.length).totalCount > 0 from hlen)]
    have hsector : (roseBinS rows.length).sector = "S" := rfl
    have hcast : (((roseBinS rows.length).totalCount : ℚ)) = (rows.length : ℚ) := rfl
    have hcast0 : (((0 : ℕ) : ℚ)) = (0 : ℚ) := by norm_num
    rw [hsector, hcast, hcast0, div_self hq, zero_div, round3Q_one, round3Q_zero,
      if_pos hlen, if_pos hlen]
  have hmain : build_wind_rose rows = ⟨some "S", some 1, some 0⟩ := by
    unfold build_wind_rose
    rw [hinit, roseFold_south roseStep (fun _ _ _ _ => rfl) rows hall 0]
    simpa using hsummary
  have hplay : build_wind_rose_playback rows = ⟨some "S", some 1, some 0⟩ := by
    unfold build_wind_rose_playback
    have hsteps : ∀ acc r, r.direction_deg = some 180 → r.speed_mps = some 6 →
        roseStepPlayback acc r = roseStep acc r := by
      intro acc r hd hs
      unfold roseStepPlayback roseStep
      rw [hd, hs]
      rfl
    rw [hinit, roseFold_south roseStepPlayback hsteps rows hall 0]
    simpa using hsummary
  rw [hmain, hplay]
  exact ⟨rfl, rfl, rfl, rfl, rfl, rfl⟩

def rowC5 : OutputMeasurement := ⟨dt2024_01_02, none, none, some 6, some 180⟩

/-- C5 (witness): the wind-rose property evaluated on two concrete points
at bearing 180°, speed 6 m/s. -/
theorem C5_witness :
    ([rowC5, rowC5] : List OutputMeasurement) ≠ [] ∧
    (∀ r ∈ [rowC5, rowC5], r.direction_deg = some 180 ∧ r.speed_mps = some 6) ∧
    ((build_wind_rose [rowC5, rowC5]).dominantSector = some "S" ∧
     (build_wind_rose [rowC5, rowC5]).directionalConcentration = some 1 ∧
     (build_wind_rose [rowC5, rowC5]).calmShare = some 0 ∧
     (build_wind_rose_playback [rowC5, rowC5]).dominantSector = some "S" ∧
     (build_wind_rose_playback [rowC5, rowC5]).directionalConcentration = some 1 ∧
     (build_wind_rose_playback [rowC5, rowC5]).calmShare = some 0) := by
  have hall : ∀ r ∈ ([rowC5, rowC5] : List OutputMeasurement),
      r.direction_deg = some 180 ∧ r.speed_mps = some 6 := by
    intro r hr
    rcases List.mem_cons.mp hr with rfl | hr2
    · exact ⟨rfl, rfl⟩
    · rcases List.mem_cons.mp hr2 with rfl | hr3
      · exact ⟨rfl, rfl⟩
      · exact absurd hr3 (List.not_mem_nil r)
  exact ⟨List.cons_ne_nil _ _, hall,
    C5_wind_rose [rowC5, rowC5] (List.cons_ne_nil _ _) hall⟩

/-! ## Wind-farm generation simulation (playback/timeframes.py) — C7, C8 -/

/-- `models.analysis.WindFarmSimulationParams` (validated data). -/
structure WindFarmSimulationParams where
  turbine_count : ℤ
  rated_power_kw : ℚ
  cut_in_speed_mps : ℚ
  rated_speed_mps : ℚ
  cut_out_speed_mps : ℚ
  reference_air_density_kgm3 : ℚ
  min_operating_temp_c : Option ℚ
  max_operating_temp_c : Option ℚ
  min_operating_pressure_hpa : Option ℚ
  max_operating_pressure_hpa : Option ℚ
deriving DecidableEq

/-- "value present, bound present, and value below the bound". -/
def ltOpt : Option ℚ → Option ℚ → Bool
  | some v, some b => decide (v < b)
  | _, _ => false

def gtOpt : Option ℚ → Option ℚ → Bool
  | some v, some b => decide (b < v)
  | _, _ => false

/-- `PlaybackTimeframesMixin._within_operating_envelope`: the four guard
clauses, each firing only when both the reading and the bound exist. -/
def within_operating_envelope (row : OutputMeasurement)
    (params : WindFarmSimulationParams) : Bool :=
  if ltOpt row.temperature_c params.min_operating_temp_c then false
  else if gtOpt row.temperature_c params.max_operating_temp_c then false
  else if ltOpt row.pressure_hpa params.min_operating_pressure_hpa then false
  else if gtOpt row.pressure_hpa params.max_operating_pressure_hpa then false
  else true

/-- `PlaybackTimeframesMixin._air_density_kgm3`: ideal-gas density from the
row's pressure and temperature, falling back to the supplied density when
either is missing or the result degenerate. -/
def air_density_kgm3 (row : OutputMeasurement) (fallback_density_kgm3 : ℚ) : ℚ :=
  match row.pressure_hpa, row.temperature_c with
  | some p, some t =>
    if t + 273.15 ≤ 0 then fallback_density_kgm3
    else if 0 < (p * 100) / (287.05 * (t + 273.15)) then
      (p * 100) / (287.05 * (t + 273.15))
    else fallback_density_kgm3
  | _, _ => fallback_density_kgm3

/-- The density-corrected speed `speed · (ρ/ρ_ref)^(1/3)` of the generation
loop; the clamp `max(0.0, ·)` is taken over the rationals before the real
cube root. -/
noncomputable def effective_speed_mps (params : WindFarmSimulationParams)
    (row : OutputMeasurement) (speed : ℚ) : ℝ :=
  (speed : ℝ) *
    ((max 0 (air_density_kgm3 row params.reference_air_density_kgm3 /
      params.reference_air_density_kgm3) : ℚ) : ℝ) ^ ((1 : ℝ) / 3)

open Classical in
/-- The instantaneous power (kW) a single observation contributes inside
`_estimate_generation_mwh`'s loop (lines 250–272): zero outside the
operating envelope or outside `[cutIn, cutOut)` of the effective speed,
full rated power at or above the rated speed, and the clamped cubic ramp
between cut-in and rated.  Points the source `continue`s over (missing
speed, out of envelope) contribute zero energy and are modelled as zero
power; the surrounding time-step integration (hours between consecutive
points) is not needed by any claim and is not modelled. -/
noncomputable def generation_power_kw (params : WindFarmSimulationParams)
    (row : OutputMeasurement) : ℝ :=
  match row.speed_mps with
  | none => 0
  | some speed =>
    if within_operating_envelope row params = true then
      if effective_speed_mps params row speed < (params.cut_in_speed_mps : ℝ) ∨
          (params.cut_out_speed_mps : ℝ) ≤ effective_speed_mps params row speed then 0
      else if (params.rated_speed_mps : ℝ) ≤ effective_speed_mps params row speed then
        (params.turbine_count : ℝ) * (params.rated_power_kw : ℝ)
      else
        (params.turbine_count : ℝ) * (params.rated_power_kw : ℝ) *
          max 0 (min 1
            (if 0 < (params.rated_speed_mps : ℝ) ^ 3 - (params.cut_in_speed_mps : ℝ) ^ 3
             then (effective_speed_mps params row speed ^ 3 -
                 (params.cut_in_speed_mps : ℝ) ^ 3) /
               ((params.rated_speed_mps : ℝ) ^ 3 - (params.cut_in_speed_mps : ℝ) ^ 3)
             else 0))
    else 0

/-- The validity prelude of `_estimate_generation_mwh` (lines 222–234): the
function silently returns `None` — no exception — when the supplied
parameters are degenerate. -/
def estimate_generation_params_ok (params : WindFarmSimulationParams) : Bool :=
  decide (0 < (params.turbine_count : ℚ) * params.rated_power_kw) &&
  decide (0 ≤ params.cut_in_speed_mps ∧
    params.cut_in_speed_mps < params.rated_speed_mps ∧
    params.rated_speed_mps < params.cut_out_speed_mps) &&
  decide (0 < params.reference_air_density_kgm3)

/-- The raw simulation payload assembled by the `analysis` route before
model validation (`referenceAirDensityKgM3` carries the model default
1.225 when the query omitted it). -/
structure RawSimParams where
  turbineCount : ℤ
  ratedPowerKw : ℚ
  cutInSpeedMps : ℚ
  ratedSpeedMps : ℚ
  cutOutSpeedMps : ℚ
  referenceAirDensityKgM3 : ℚ
  minOperatingTempC : Option ℚ
  maxOperatingTempC : Option ℚ
  minOperatingPressureHpa : Option ℚ
  maxOperatingPressureHpa : Option ℚ
deriving DecidableEq

/-- Pydantic validation of `WindFarmSimulationParams`: the per-field
constraints (`ge`/`gt`/`le`) in declaration order, then the
`_validate_envelope` model validator; the first violated constraint
raises, which the route turns into an HTTP 400. -/
def validate_wind_farm_params (p : RawSimParams) :
    Except String WindFarmSimulationParams :=
  if ¬(1 ≤ p.turbineCount ∧ p.turbineCount ≤ 500) then
    .error "turbineCount out of range"
  else if ¬(0 < p.ratedPowerKw) then .error "ratedPowerKw must be positive"
  else if ¬(0 ≤ p.cutInSpeedMps) then .error "cutInSpeedMps must be nonnegative"
  else if ¬(0 < p.ratedSpeedMps) then .error "ratedSpeedMps must be positive"
  else if ¬(0 < p.cutOutSpeedMps) then .error "cutOutSpeedMps must be positive"
  else if ¬(0 < p.referenceAirDensityKgM3) then
    .error "referenceAirDensityKgM3 must be positive"
  else if p.ratedSpeedMps ≤ p.cutInSpeedMps then
    .error "cutInSpeedMps must be lower than ratedSpeedMps."
  else if p.cutOutSpeedMps ≤ p.ratedSpeedMps then
    .error "ratedSpeedMps must be lower than cutOutSpeedMps."
  else if ltOpt p.maxOperatingTempC p.minOperatingTempC ||
      (match p.minOperatingTempC, p.maxOperatingTempC with
        | some a, some b => decide (a = b)
        | _, _ => false) then
    .error "minOperatingTempC must be lower than maxOperatingTempC."
  else if ltOpt p.maxOperatingPressureHpa p.minOperatingPressureHpa ||
      (match p.minOperatingPressureHpa, p.maxOperatingPressureHpa with
        | some a, some b => decide (a = b)
        | _, _ => false) then
    .error "minOperatingPressureHpa must be lower than maxOperatingPressureHpa."
  else
    .ok ⟨p.turbineCount, p.ratedPowerKw, p.cutInSpeedMps, p.ratedSpeedMps,
      p.cutOutSpeedMps, p.referenceAirDensityKgM3, p.minOperatingTempC,
      p.maxOperatingTempC, p.minOperatingPressureHpa, p.maxOperatingPressureHpa⟩

/-- The route's simulation-parameter handling (`routes/analysis.py`,
`try: WindFarmSimulationParams(**payload) except ValueError: HTTP 400`):
either a 400 with the validation detail, or a validated params object
passed on to the service. -/
inductive RouteSimOutcome where
  | badRequest (detail : String)
  | ok (params : WindFarmSimulationParams)
deriving DecidableEq

def timeframe_route_sim_params (p : RawSimParams) : RouteSimOutcome :=
  match validate_wind_farm_params p with
  | .error msg => .badRequest msg
  | .ok params => .ok params

set_option maxHeartbeats 1000000 in
theorem validate_ok_envelope {p : RawSimParams} {params : WindFarmSimulationParams}
    (h : validate_wind_farm_params p = .ok params) :
    0 ≤ p.cutInSpeedMps ∧ p.cutInSpeedMps < p.ratedSpeedMps ∧
    p.ratedSpeedMps < p.cutOutSpeedMps ∧ 0 < p.referenceAirDensityKgM3 := by
  unfold validate_wind_farm_params at h
  split_ifs at h with h1 h2 h3 h4 h5 h6 h7 h8 h9 h10
  push_neg at h3 h6 h7 h8
  exact ⟨h3, h7, h8, h6⟩

/-- C8 (confirmed): whenever the supplied simulation parameters violate
`0 ≤ cutIn < rated < cutOut` or the reference air density is not positive,
the params object cannot be constructed: validation fails and the
timeframe-analytics call is rejected with a 400 carrying the validation
detail, before the service (and its generation loop) ever runs — never
retried, never swallowed. -/
theorem C8_validation_surfaced (p : RawSimParams)
    (hbad : ¬(0 ≤ p.cutInSpeedMps ∧ p.cutInSpeedMps < p.ratedSpeedMps ∧
      p.ratedSpeedMps < p.cutOutSpeedMps) ∨ p.referenceAirDensityKgM3 ≤ 0) :
    (∃ msg, validate_wind_farm_params p = .error msg) ∧
    (∃ msg, timeframe_route_sim_params p = .badRequest msg) ∧
    (∀ params, validate_wind_farm_params p ≠ .ok params) := by
  have herr : ∃ msg, validate_wind_farm_params p = .error msg := by
    rcases hv : validate_wind_farm_params p with msg | params
    · exact ⟨msg, rfl⟩
    · obtain ⟨g1, g2, g3, g4⟩ := validate_ok_envelope hv
      rcases hbad with hb | hb
      · exact absurd ⟨g1, g2, g3⟩ hb
      · exact absurd g4 (not_lt.mpr hb)
  obtain ⟨msg, hmsg⟩ := herr
  refine ⟨⟨msg, hmsg⟩, ⟨msg, ?_⟩, ?_⟩
  · unfold timeframe_route_sim_params
    rw [hmsg]
  · intro params hok
    rw [hmsg] at hok
    exact Except.noConfusion hok

/-- C8 (witness): an inverted envelope (cutIn 5 ≥ rated 3) is rejected at
validation time. -/
theorem C8_witness :
    (¬((0 : ℚ) ≤ 5 ∧ (5 : ℚ) < 3 ∧ (3 : ℚ) < 25) ∨ (1.225 : ℚ) ≤ 0) ∧
    ((∃ msg, validate_wind_farm_params
        ⟨1, 100, 5, 3, 25, 1.225, none, none, none, none⟩ = .error msg) ∧
     (∃ msg, timeframe_route_sim_params
        ⟨1, 100, 5, 3, 25, 1.225, none, none, none, none⟩ = .badRequest msg) ∧
     (∀ params, validate_wind_farm_params
        ⟨1, 100, 5, 3, 25, 1.225, none, none, none, none⟩ ≠ .ok params)) :=
  ⟨Or.inl (by intro h; exact absurd h.2.1 (by norm_num)),
    C8_validation_surfaced ⟨1, 100, 5, 3, 25, 1.225, none, none, none, none⟩
      (Or.inl (by intro h; exact absurd h.2.1 (by norm_num)))⟩

def paramsC7 : WindFarmSimulationParams :=
  ⟨1, 1000, 3, 12, 25, 1.225, none, none, none, none⟩

/-- A point at exactly the rated speed (12 m/s) with a very low station
pressure (10 hPa at 0 °C): within the (unbounded) operating envelope, but
with ambient air density far below the reference. -/
def rowC7 : OutputMeasurement := ⟨dt2024_01_02, some 0, some 10, some 12, none⟩

theorem rpow_one_div_three_lt_quarter {r : ℚ} (h0 : (0 : ℚ) ≤ r) (h64 : r < 1 / 64) :
    ((r : ℚ) : ℝ) ^ ((1 : ℝ) / 3) < 1 / 4 := by
  have hlt : ((r : ℚ) : ℝ) ^ ((1 : ℝ) / 3) < (1 / 64 : ℝ) ^ ((1 : ℝ) / 3) := by
    have hcast : ((r : ℚ) : ℝ) < (((1 : ℚ) / 64 : ℚ) : ℝ) := by exact_mod_cast h64
    push_cast at hcast
    exact Real.rpow_lt_rpow (by exact_mod_cast h0) hcast (by norm_num)
  have hq : (1 / 64 : ℝ) ^ ((1 : ℝ) / 3) = 1 / 4 := by
    have h1 : ((1 : ℝ) / 64) = (1 / 4 : ℝ) ^ (3 : ℕ) := by norm_num
    rw [h1, ← Real.rpow_natCast (1 / 4 : ℝ) 3,
      ← Real.rpow_mul (by norm_num : (0 : ℝ) ≤ 1 / 4)]
    rw [show ((3 : ℕ) : ℝ) * ((1 : ℝ) / 3) = 1 by push_cast; norm_num, Real.rpow_one]
  rw [hq] at hlt
  exact hlt

/-- C7 (counterexample): the observation `rowC7` is inside the operating
envelope and its wind speed equals the rated speed, yet the simulated
instantaneous power is 0, not turbineCount × ratedPowerKw = 1000 kW: the
density correction scales the effective speed below cut-in. -/
theorem C7_counterexample :
    within_operating_envelope rowC7 paramsC7 = true ∧
    rowC7.speed_mps = some paramsC7.rated_speed_mps ∧
    generation_power_kw paramsC7 rowC7 = 0 ∧
    (paramsC7.turbine_count : ℝ) * (paramsC7.rated_power_kw : ℝ) = 1000 ∧
    (0 : ℝ) ≠ 1000 := by
  have hd : air_density_kgm3 rowC7 paramsC7.reference_air_density_kgm3 =
      ((10 : ℚ) * 100) / (287.05 * ((0 : ℚ) + 273.15)) := by
    show (if (0 : ℚ) + 273.15 ≤ 0 then paramsC7.reference_air_density_kgm3
      else if 0 < ((10 : ℚ) * 100) / (287.05 * ((0 : ℚ) + 273.15)) then
        ((10 : ℚ) * 100) / (287.05 * ((0 : ℚ) + 273.15))
      else paramsC7.reference_air_density_kgm3) =
      ((10 : ℚ) * 100) / (287.05 * ((0 : ℚ) + 273.15))
    rw [if_neg (by norm_num), if_pos (by norm_num)]
  have hratio : max (0 : ℚ)
      (air_density_kgm3 rowC7 paramsC7.reference_air_density_kgm3 /
        paramsC7.reference_air_density_kgm3) < 1 / 64 := by
    rw [hd, show paramsC7.reference_air_density_kgm3 = (1.225 : ℚ) from rfl,
      max_eq_right (by norm_num)]
    norm_num
  have hrnn : (0 : ℚ) ≤ max (0 : ℚ)
      (air_density_kgm3 rowC7 paramsC7.reference_air_density_kgm3 /
        paramsC7.reference_air_density_kgm3) := le_max_left 0 _
  have hveff : effective_speed_mps paramsC7 rowC7 12 < (paramsC7.cut_in_speed_mps : ℝ) := by
    unfold effective_speed_mps
    have hcube := rpow_one_div_three_lt_quarter hrnn hratio
    have h12 : (((12 : ℚ) : ℝ)) = 12 := by norm_num
    have hcut : ((paramsC7.cut_in_speed_mps : ℚ) : ℝ) = 3 := by norm_num [paramsC7]
    rw [h12, hcut]
    nlinarith [Real.rpow_nonneg (by exact_mod_cast hrnn :
      (0 : ℝ) ≤ ((max (0 : ℚ) (air_density_kgm3 rowC7
        paramsC7.reference_air_density_kgm3 / paramsC7.reference_air_density_kgm3) : ℚ) : ℝ))
      (1 / 3)]
  have hpow : generation_power_kw paramsC7 rowC7 = 0 := by
    have hsp : rowC7.speed_mps = some 12 := rfl
    simp only [generation_power_kw, hsp]
    rw [if_pos (show within_operating_envelope rowC7 paramsC7 = true from rfl),
      if_pos (Or.inl hveff)]
  exact ⟨rfl, rfl, hpow, by norm_num [paramsC7], by norm_num⟩

/-- C7 (amended): for observations within the operating envelope whose
computed air density equals the reference density (so the density ratio is
1 — e.g. pressure or temperature missing), with a valid envelope
`0 ≤ cutIn < rated < cutOut`: a wind speed exactly equal to the rated
speed yields instantaneous power `turbineCount × ratedPowerKw`, and a
wind speed below cut-in or at/above cut-out yields zero.  In general the
power curve is applied to the density-corrected effective speed
`v·(ρ/ρ_ref)^(1/3)`, not the raw wind speed. -/
theorem C7_amended (params : WindFarmSimulationParams) (row : OutputMeasurement)
    (speed : ℚ) (hsp : row.speed_mps = some speed)
    (henv : within_operating_envelope row params = true)
    (hvalid : 0 ≤ params.cut_in_speed_mps ∧
      params.cut_in_speed_mps < params.rated_speed_mps ∧
      params.rated_speed_mps < params.cut_out_speed_mps)
    (hdr : air_density_kgm3 row params.reference_air_density_kgm3 =
      params.reference_air_density_kgm3)
    (hrefpos : 0 < params.reference_air_density_kgm3) :
    (speed = params.rated_speed_mps →
      generation_power_kw params row =
        (params.turbine_count : ℝ) * (params.rated_power_kw : ℝ)) ∧
    (speed < params.cut_in_speed_mps → generation_power_kw params row = 0) ∧
    (params.cut_out_speed_mps ≤ speed → generation_power_kw params row = 0) := by
  have hveq : effective_speed_mps params row speed = (speed : ℝ) := by
    unfold effective_speed_mps
    rw [hdr, div_self (ne_of_gt hrefpos), max_eq_right (by norm_num : (0 : ℚ) ≤ 1)]
    push_cast
    rw [Real.one_rpow, mul_one]
  refine ⟨?_, ?_, ?_⟩
  · intro heq
    simp only [generation_power_kw, hsp]
    rw [if_pos henv, hveq]
    have hlt1 : (params.cut_in_speed_mps : ℝ) < (speed : ℝ) := by
      exact_mod_cast heq ▸ hvalid.2.1
    have hlt2 : (speed : ℝ) < (params.cut_out_speed_mps : ℝ) := by
      exact_mod_cast heq ▸ hvalid.2.2
    rw [if_neg (by push_neg; exact ⟨le_of_lt hlt1, hlt2⟩),
      if_pos (le_of_eq (by exact_mod_cast heq.symm))]
  · intro hlt
    simp only [generation_power_kw, hsp]
    rw [if_pos henv, hveq, if_pos (Or.inl (by exact_mod_cast hlt))]
  · intro hge
    simp only [generation_power_kw, hsp]
    rw [if_pos henv, hveq, if_pos (Or.inr (by exact_mod_cast hge))]

def paramsC7w : WindFarmSimulationParams :=
  ⟨2, 500, 3, 12, 25, 1.225, none, none, none, none⟩

def rowC7w : OutputMeasurement := ⟨dt2024_01_03, none, none, some 12, none⟩

/-- C7 (witness): the amended power-curve facts at a concrete observation
with no pressure/temperature (reference density fallback) at exactly the
rated speed of a 2 × 500 kW farm. -/
theorem C7_witness :
    rowC7w.speed_mps = some 12 ∧
    within_operating_envelope rowC7w paramsC7w = true ∧
    (0 ≤ paramsC7w.cut_in_speed_mps ∧
      paramsC7w.cut_in_speed_mps < paramsC7w.rated_speed_mps ∧
      paramsC7w.rated_speed_mps < paramsC7w.cut_out_speed_mps) ∧
    air_density_kgm3 rowC7w paramsC7w.reference_air_density_kgm3 =
      paramsC7w.reference_air_density_kgm3 ∧
    0 < paramsC7w.reference_air_density_kgm3 ∧
    (((12 : ℚ) = paramsC7w.rated_speed_mps →
      generation_power_kw paramsC7w rowC7w =
        (paramsC7w.turbine_count : ℝ) * (paramsC7w.rated_power_kw : ℝ)) ∧
    ((12 : ℚ) < paramsC7w.cut_in_speed_mps → generation_power_kw paramsC7w rowC7w = 0) ∧
    (paramsC7w.cut_out_speed_mps ≤ (12 : ℚ) → generation_power_kw paramsC7w rowC7w = 0)) :=
  ⟨rfl, rfl, ⟨by norm_num [paramsC7w], by norm_num [paramsC7w], by norm_num [paramsC7w]⟩,
    rfl, by norm_num [paramsC7w],
    C7_amended paramsC7w rowC7w 12 rfl rfl
      ⟨by norm_num [paramsC7w], by norm_num [paramsC7w], by norm_num [paramsC7w]⟩
      rfl (by norm_num [paramsC7w])⟩

/-! ## Backfill job orchestrator (playback/query_jobs.py) — C4

The job payload models the fields of `analysis_query_jobs` the claims
read; message strings, frame counts, timestamps and ids are not modelled.
Repository persistence of job snapshots is modelled by the trace of
statuses passed to `upsert_analysis_query_job`; the worker's
`upsert_measurements` writes to the measurement store are not needed by
any claim.  Upstream exceptions are classified by the source from the
exception message ("429" → rate limited; "HTTP 500/502/503/504" →
retryable transient; anything else permanent) and are modelled as an
error kind.  The upstream client is an oracle indexed by the number of
AEMET calls made so far (call 0 is the bulk pre-fetch). -/

inductive WStatus where
  | pending
  | cached
  | complete
  | failed
deriving DecidableEq

inductive JStatus where
  | pending
  | running
  | complete
  | failed
deriving DecidableEq

inductive UpErrKind where
  | rateLimited
  | transient
  | permanent
deriving DecidableEq

inductive FetchOutcome where
  | ok (rows : List SourceMeasurement)
  | err (e : UpErrKind)
deriving DecidableEq

structure WState where
  startUtc : DT
  endUtc : DT
  status : WStatus
  apiCallsPlanned : Nat
  apiCallsCompleted : Nat
  attempts : Nat
  errorDetail : Option UpErrKind
deriving DecidableEq

structure JobPayload where
  status : JStatus
  totalWindows : Nat
  cachedWindows : Nat
  missingWindows : Nat
  completedWindows : Nat
  totalApiCallsPlanned : Nat
  completedApiCalls : Nat
  playbackReady : Bool
  errorDetail : Option UpErrKind
  windows : List WState
deriving DecidableEq

/-- `requested_history_start = history_start_local or start_local`, clamped
down to `start_local`. -/
def job_history_start (startUtc : DT) (historyStart : Option DT) : DT :=
  match historyStart with
  | none => startUtc
  | some h => if DT.ltb startUtc h then startUtc else h

/-- `PlaybackQueryJobsMixin.create_query_job`: plan the windows from the
history start to the effective end, mark cached ones (the repository
freshness/cached decision is abstracted as the `cached` predicate:
`has_fresh_fetch_window` for the in-progress month, `has_cached_fetch_window`
otherwise), and derive the counters and initial status. -/
def create_query_job (startUtc : DT) (historyStart : Option DT) (effectiveEndUtc : DT)
    (cached : DT → DT → Bool) : Except String JobPayload :=
  if DT.leb effectiveEndUtc startUtc then
    .error "Start datetime must be earlier than the effective end datetime."
  else
    .ok
      { status :=
          if (split_month_windows_covering_range (job_history_start startUtc historyStart)
                effectiveEndUtc).length -
              (split_month_windows_covering_range (job_history_start startUtc historyStart)
                effectiveEndUtc).countP (fun w => cached w.1 w.2) = 0
          then JStatus.complete else JStatus.pending,
        totalWindows := (split_month_windows_covering_range
          (job_history_start startUtc historyStart) effectiveEndUtc).length,
        cachedWindows := (split_month_windows_covering_range
          (job_history_start startUtc historyStart) effectiveEndUtc).countP
            (fun w => cached w.1 w.2),
        missingWindows := (split_month_windows_covering_range
          (job_history_start startUtc historyStart) effectiveEndUtc).length -
          (split_month_windows_covering_range (job_history_start startUtc historyStart)
            effectiveEndUtc).countP (fun w => cached w.1 w.2),
        completedWindows :=
          if (split_month_windows_covering_range (job_history_start startUtc historyStart)
                effectiveEndUtc).length -
              (split_month_windows_covering_range (job_history_start startUtc historyStart)
                effectiveEndUtc).countP (fun w => cached w.1 w.2) = 0
          then (split_month_windows_covering_range
            (job_history_start startUtc historyStart) effectiveEndUtc).length
          else (split_month_windows_covering_range
            (job_history_start startUtc historyStart) effectiveEndUtc).countP
              (fun w => cached w.1 w.2),
        totalApiCallsPlanned := ((split_month_windows_covering_range
          (job_history_start startUtc historyStart) effectiveEndUtc).length -
          (split_month_windows_covering_range (job_history_start startUtc historyStart)
            effectiveEndUtc).countP (fun w => cached w.1 w.2)) * 2,
        completedApiCalls := 0,
        playbackReady := decide ((split_month_windows_covering_range
          (job_history_start startUtc historyStart) effectiveEndUtc).length -
          (split_month_windows_covering_range (job_history_start startUtc historyStart)
            effectiveEndUtc).countP (fun w => cached w.1 w.2) = 0),
        errorDetail := none,
        windows := (split_month_windows_covering_range
          (job_history_start startUtc historyStart) effectiveEndUtc).map (fun w =>
          { startUtc := w.1, endUtc := w.2,
            status := if cached w.1 w.2 then WStatus.cached else WStatus.pending,
            apiCallsPlanned := if cached w.1 w.2 then 0 else 2,
            apiCallsCompleted := 0, attempts := 0, errorDetail := none }) }

/-- `"429" in detail`. -/
def is_rate_limited : UpErrKind → Bool
  | .rateLimited => true
  | _ => false

/-- `_is_retryable_upstream_error`: `HTTP 500/502/503/504` in detail. -/
def is_retryable_upstream : UpErrKind → Bool
  | .transient => true
  | _ => false

/-- `bulk_rows_by_month.get((start_utc.year, start_utc.month), [])`. -/
def bulk_month_rows (all_rows : List SourceMeasurement) (s : DT) : List SourceMeasurement :=
  all_rows.filter (fun r =>
    decide (r.measured_at_utc.year = s.year) && decide (r.measured_at_utc.month = s.month))

/-- `PlaybackQueryJobsMixin._update_query_job_progress` (frame counters not
modelled). -/
def update_query_job_progress (p : JobPayload) : JobPayload :=
  { p with
    completedWindows := p.windows.countP (fun w =>
      decide (w.status = WStatus.cached ∨ w.status = WStatus.complete)),
    completedApiCalls := (p.windows.map (fun w => w.apiCallsCompleted)).sum,
    playbackReady := decide (p.windows.countP (fun w =>
      decide (w.status = WStatus.cached ∨ w.status = WStatus.complete)) = p.totalWindows) }

/-- The `while attempts < max_attempts and not success` loop for one
window.  `fuel` is `max_attempts - attempts` on entry (so the structural
recursion matches the loop guard); returns the final window state, the
next upstream call index, the number of retry snapshots persisted by the
rate-limit/transient branch, and whether the window (hence the job)
failed. -/
def attemptWindow (oracle : Nat → FetchOutcome) (bulk : Option (List SourceMeasurement)) :
    Nat → WState → Nat → WState × Nat × Nat × Bool
  | 0, w, calls => (w, calls, 0, false)
  | fuel + 1, w, calls =>
    let w1 : WState := { w with attempts := w.attempts + 1 }
    let fetched : FetchOutcome × Nat :=
      match bulk with
      | some all_rows => (.ok (bulk_month_rows all_rows w1.startUtc), calls)
      | none => (oracle calls, calls + 1)
    match fetched.1 with
    | .ok _rows =>
      ({ w1 with
          status := WStatus.complete
          apiCallsCompleted := w1.apiCallsPlanned
          errorDetail := none }, fetched.2, 0, false)
    | .err e =>
      if is_rate_limited e || is_retryable_upstream e then
        if w1.attempts < 4 then
          -- one payload snapshot persisted, then sleep and retry
          let again := attemptWindow oracle bulk fuel
            { w1 with status := WStatus.pending, errorDetail := some e } fetched.2
          (again.1, again.2.1, again.2.2.1 + 1, again.2.2.2)
        else
          ({ w1 with status := WStatus.failed, errorDetail := some e }, fetched.2, 1, true)
      else
        ({ w1 with status := WStatus.failed, errorDetail := some e }, fetched.2, 0, true)

/-- The `for index, window in enumerate(windows)` loop of
`_run_query_job_worker`: `done` holds the already visited windows, and the
returned trace lists the status of every payload snapshot persisted by the
loop and its epilogue. -/
def processWindows (oracle : Nat → FetchOutcome) (bulk : Option (List SourceMeasurement))
    (effMax : Option Nat) :
    List WState → List WState → JobPayload → Nat → Nat → List JStatus →
    JobPayload × Nat × List JStatus
  | done, [], p, calls, _processed, trace =>
    ((update_query_job_progress
        { p with windows := done, status := JStatus.complete, playbackReady := true }),
      calls, trace ++ [JStatus.complete])
  | done, w :: rest, p, calls, processed, trace =>
    if w.status = WStatus.cached ∨ w.status = WStatus.complete then
      processWindows oracle bulk effMax (done ++ [w]) rest p calls processed trace
    else
      let att := attemptWindow oracle bulk (4 - w.attempts) w calls
      if att.2.2.2 then
        ((update_query_job_progress
            { p with
                windows := done ++ [att.1] ++ rest
                status := JStatus.failed
                errorDetail := att.1.errorDetail }),
          att.2.1,
          trace ++ List.replicate att.2.2.1 JStatus.running ++ [JStatus.failed])
      else
        -- the per-window progress upsert, the `processed_windows` bookkeeping,
        -- and the bounded drive-by early return (`max_windows`)
        let p1 := update_query_job_progress { p with windows := done ++ [att.1] ++ rest }
        let trace1 := trace ++ List.replicate att.2.2.1 JStatus.running ++ [p1.status]
        let processed1 :=
          if att.1.status = WStatus.cached ∨ att.1.status = WStatus.complete then
            processed + 1
          else processed
        match effMax with
        | some k =>
          if (att.1.status = WStatus.cached ∨ att.1.status = WStatus.complete) ∧
              k ≤ processed1 then
            if p1.completedWindows < p1.totalWindows then
              ({ p1 with status := JStatus.running }, att.2.1, trace1 ++ [JStatus.running])
            else (p1, att.2.1, trace1)
          else processWindows oracle bulk effMax (done ++ [att.1]) rest p1 att.2.1
            processed1 trace1
        | none =>
          processWindows oracle bulk effMax (done ++ [att.1]) rest p1 att.2.1
            processed1 trace1

/-- `PlaybackQueryJobsMixin._run_query_job_worker`: terminal payloads are
left untouched; otherwise the job is marked running, the bulk pre-fetch is
attempted (consuming upstream call 0; a failure or an empty result falls
back to per-window calls), and the window loop runs.  Returns the final
payload, the number of upstream calls made, and the statuses of the
persisted payload snapshots in order. -/
def run_query_job_worker (p0 : JobPayload) (oracle : Nat → FetchOutcome)
    (maxWindows : Option Nat) : JobPayload × Nat × List JStatus :=
  if p0.status = JStatus.complete ∨ p0.status = JStatus.failed then (p0, 0, [])
  else
    if p0.windows.isEmpty then
      ({ p0 with status := JStatus.complete, playbackReady := true }, 0,
        [JStatus.running, JStatus.complete])
    else
      match oracle 0 with
      | .ok rows =>
        if rows.isEmpty then
          processWindows oracle none maxWindows [] p0.windows
            { p0 with status := JStatus.running } 1 0 [JStatus.running]
        else
          processWindows oracle (some rows) none [] p0.windows
            { p0 with status := JStatus.running } 1 0 [JStatus.running]
      | .err _ =>
        processWindows oracle none maxWindows [] p0.windows
          { p0 with status := JStatus.running } 1 0 [JStatus.running]

instance {ε α : Type _} [DecidableEq ε] [DecidableEq α] : DecidableEq (Except ε α) :=
  fun x y =>
    match x, y with
    | .ok a, .ok b =>
      if h : a = b then .isTrue (by rw [h])
      else .isFalse (by intro hc; cases hc; exact h rfl)
    | .error a, .error b =>
      if h : a = b then .isTrue (by rw [h])
      else .isFalse (by intro hc; cases hc; exact h rfl)
    | .ok _, .error _ => .isFalse (by intro hc; cases hc)
    | .error _, .ok _ => .isFalse (by intro hc; cases hc)

def dt2024_01_05 : DT := ⟨2024, 1, 5, 0, 0, 0, 0, by omega⟩
def dt2024_01_10 : DT := ⟨2024, 1, 10, 0, 0, 0, 0, by omega⟩
def dt2024_01_20 : DT := ⟨2024, 1, 20, 0, 0, 0, 0, by omega⟩

/-- Upstream that always answers with one January 2024 observation (so the
bulk pre-fetch succeeds and satisfies the window). -/
def oracleC4ok : Nat → FetchOutcome :=
  fun _ => .ok [⟨dt2024_01_10, none, none, some 5, some 10⟩]

/-- Upstream that always fails permanently (non-429, non-5xx). -/
def oracleC4perm : Nat → FetchOutcome := fun _ => .err .permanent

/-- Upstream that always fails with a retryable 5xx. -/
def oracleC4trans : Nat → FetchOutcome := fun _ => .err .transient

/-- C4 (counterexample): a job with exactly one missing window, against an
upstream that fails permanently, transitions to `failed` after a single
attempt on that window — permanent errors are never retried, so the job
does not take `max_attempts` (4) failures to fail. -/
theorem C4_counterexample :
    (create_query_job dt2024_01_05 none dt2024_01_20 (fun _ _ => false)).map
        (fun p => ((run_query_job_worker p oracleC4perm none).1.status,
          (run_query_job_worker p oracleC4perm none).1.windows.map (fun w => w.attempts))) =
      .ok (JStatus.failed, [1]) ∧ (1 : Nat) ≠ 4 := by
  constructor
  · decide
  · decide

/-- C4 (amended): a job created with every planned window already cached is
`complete` with `missingWindows = 0` and `totalApiCallsPlanned = 0`
immediately upon creation.  A job with one missing window transitions
`pending → running → complete` after one successful upstream fetch.  It
transitions to `failed` immediately after a single permanent upstream
failure on that window (permanent errors are never retried), and after
`max_attempts` (4) consecutive rate-limited/transient failures. -/
theorem C4_amended :
    (∀ (s : DT) (hist : Option DT) (eff : DT) (cached : DT → DT → Bool),
      DT.ltb s eff = true →
      (∀ w ∈ split_month_windows_covering_range (job_history_start s hist) eff,
        cached w.1 w.2 = true) →
      (create_query_job s hist eff cached).map
          (fun p => (p.status, p.missingWindows, p.totalApiCallsPlanned)) =
        .ok (JStatus.complete, 0, 0)) ∧
    ((create_query_job dt2024_01_05 none dt2024_01_20 (fun _ _ => false)).map
        (fun p => (p.status, p.missingWindows,
          (run_query_job_worker p oracleC4ok none).1.status,
          (run_query_job_worker p oracleC4ok none).2.1,
          (run_query_job_worker p oracleC4ok none).2.2)) =
      .ok (JStatus.pending, 1, JStatus.complete, 1,
        [JStatus.running, JStatus.running, JStatus.complete])) ∧
    ((create_query_job dt2024_01_05 none dt2024_01_20 (fun _ _ => false)).map
        (fun p => ((run_query_job_worker p oracleC4perm none).1.status,
          (run_query_job_worker p oracleC4perm none).1.windows.map (fun w => w.attempts),
          (run_query_job_worker p oracleC4perm none).2.2)) =
      .ok (JStatus.failed, [1], [JStatus.running, JStatus.failed])) ∧
    ((create_query_job dt2024_01_05 none dt2024_01_20 (fun _ _ => false)).map
        (fun p => ((run_query_job_worker p oracleC4trans none).1.status,
          (run_query_job_worker p oracleC4trans none).1.windows.map (fun w => w.attempts))) =
      .ok (JStatus.failed, [4])) := by
  refine ⟨?_, by decide, by decide, by decide⟩
  intro s hist eff cached hlt hall
  unfold create_query_job
  have hguard : DT.leb eff s = false := by
    unfold DT.leb
    rw [hlt]
    rfl
  rw [hguard]
  have hcount : (split_month_windows_covering_range (job_history_start s hist)
      eff).countP (fun w => cached w.1 w.2) =
      (split_month_windows_covering_range (job_history_start s hist) eff).length := by
    rw [List.countP_eq_length]
    exact hall
  simp only [Bool.false_eq_true, if_false, Except.map, hcount, Nat.sub_self, if_pos,
    Nat.zero_mul]

/-- C4 (witness): the instant-complete creation fact at a concrete range
with a fully cached plan. -/
theorem C4_witness :
    DT.ltb dt2024_01_05 dt2024_01_20 = true ∧
    ((create_query_job dt2024_01_05 none dt2024_01_20 (fun _ _ => true)).map
        (fun p => (p.status, p.missingWindows, p.totalApiCallsPlanned)) =
      .ok (JStatus.complete, 0, 0)) :=
  ⟨by decide,
    C4_amended.1 dt2024_01_05 none dt2024_01_20 (fun _ _ => true) (by decide)
      (fun _ _ => rfl)⟩

end AntarcticWind
